import Mathlib

/-!
Verification development for the snapshot-archive subsystem in
src/runtime/src/snapshot_utils.rs (archive naming and discovery, capped
data-file I/O, retention/purge, packaging, archiving and restore).

The Rust source is shallowly embedded: filenames are strings, directories
are lists of file names, machine integers are naturals bounded by 2^64
where overflow matters, fallible operations return Except values, and the
filesystem effects of a function are either made explicit state or
recorded as an event trace.
-/

/-! ## Character classes and decimal numerals

The filename grammar uses the POSIX classes digit and alnum (ASCII). -/

def isDigitChar (c : Char) : Bool :=
  c.isDigit

def isAlnumChar (c : Char) : Bool :=
  c.isAlpha || c.isDigit

/-- Numeric value of a decimal digit string (most significant first). -/
def decimalValue (cs : List Char) : Nat :=
  cs.foldl (fun a c => 10 * a + (c.toNat - 48)) 0

/-- Embedding of str::parse::\<u64\> on an all-digit capture: succeeds exactly
when the value fits in a u64. -/
def parseU64 (cs : List Char) : Option Nat :=
  if decimalValue cs < 2 ^ 64 then some (decimalValue cs) else none

def natDigitChar (n : Nat) : Char :=
  Char.ofNat (48 + n)

/-- Decimal rendering of a natural, fuelled so that it is structurally
recursive (the fuel n is always enough since a number has at most n digits).
This embeds the Display implementation for u64 used by the Rust format
macros. -/
def natToDecimalAux : Nat → Nat → List Char
  | 0, _ => []
  | fuel + 1, n =>
    if n = 0 then [] else natToDecimalAux fuel (n / 10) ++ [natDigitChar (n % 10)]

def natToDecimal (n : Nat) : List Char :=
  if n = 0 then ['0'] else natToDecimalAux n n

/-! ## Archive formats (src/runtime/src/snapshot_utils.rs, ArchiveFormat) -/

inductive ArchiveFormat where
  | TarBzip2
  | TarGzip
  | TarZstd
  | Tar
deriving DecidableEq, Repr

def get_archive_ext (archive_format : ArchiveFormat) : String :=
  match archive_format with
  | ArchiveFormat.TarBzip2 => "tar.bz2"
  | ArchiveFormat.TarGzip => "tar.gz"
  | ArchiveFormat.TarZstd => "tar.zst"
  | ArchiveFormat.Tar => "tar"

def archive_format_from_str (archive_format : String) : Option ArchiveFormat :=
  if archive_format = "tar.bz2" then some ArchiveFormat.TarBzip2
  else if archive_format = "tar.gz" then some ArchiveFormat.TarGzip
  else if archive_format = "tar.zst" then some ArchiveFormat.TarZstd
  else if archive_format = "tar" then some ArchiveFormat.Tar
  else none

/-! ## Hashes -/

/-- Modelled from the spec: the sdk Hash type (not under src) renders as an
alphanumeric token in archive filenames, and parsing a hash back from a
filename accepts exactly such tokens (spec section 4.2: the hash component
of the grammar is an alphanumeric token). A hash is carried here by its
rendered text. -/
structure SnapHash where
  text : String
deriving DecidableEq, Repr

/-- Modelled from the spec: a hash token is well formed when it is a
nonempty alphanumeric string (every rendered content hash is such). -/
def SnapHash.wf (h : SnapHash) : Prop :=
  h.text.data ≠ [] ∧ ∀ c ∈ h.text.data, isAlnumChar c = true

instance (h : SnapHash) : Decidable (SnapHash.wf h) :=
  inferInstanceAs (Decidable (_ ∧ _))

/-- Modelled from the spec: parsing a hash from its filename token succeeds
exactly on well-formed (nonempty alphanumeric) tokens. -/
def SnapHash.fromStr (s : String) : Option SnapHash :=
  if s.data ≠ [] ∧ s.data.all isAlnumChar then some ⟨s⟩ else none

/-! ## Filename parsing (regex SNAPSHOT_ARCHIVE_FILENAME_REGEX and
INCREMENTAL_SNAPSHOT_ARCHIVE_FILENAME_REGEX)

The anchored regexes are implemented as deterministic maximal-munch
parsers; this is equivalent because a digit run cannot contain the
following literal hyphen and an alnum run cannot contain the following
literal dot, so no backtracking into the captures can succeed. -/

/-- Consume an expected literal token at the head of the input, returning
the remainder on success. -/
def dropToken : List Char → List Char → Option (List Char)
  | [], s => some s
  | _ :: _, [] => none
  | p :: ps, c :: cs => if c = p then dropToken ps cs else none

/-- Consume one expected character at the head of the input. -/
def expectChar (y : Char) : List Char → Option (List Char)
  | [] => none
  | c :: cs => if c = y then some cs else none

/-- Embedding of parse_snapshot_archive_filename: matches
snapshot-(digits)-(alnum).(tar|tar.bz2|tar.zst|tar.gz) anchored at both
ends, then parses the three captures; any failure yields none (no match,
never an error). -/
def parse_snapshot_archive_filename (archive_filename : String) :
    Option (Nat × SnapHash × ArchiveFormat) :=
  match dropToken "snapshot-".data archive_filename.data with
  | none => none
  | some r1 =>
    let ds := r1.takeWhile isDigitChar
    match expectChar '-' (r1.dropWhile isDigitChar) with
    | none => none
    | some r3 =>
      if ds = [] then none else
      let hs := r3.takeWhile isAlnumChar
      match expectChar '.' (r3.dropWhile isAlnumChar) with
      | none => none
      | some r5 =>
        if hs = [] then none else
        match parseU64 ds with
        | none => none
        | some slot =>
          match SnapHash.fromStr (String.mk hs) with
          | none => none
          | some hash =>
            match archive_format_from_str (String.mk r5) with
            | none => none
            | some archive_format => some (slot, hash, archive_format)

/-- Embedding of parse_incremental_snapshot_archive_filename: matches
incremental-snapshot-(digits)-(digits)-(alnum).(ext) anchored at both
ends. -/
def parse_incremental_snapshot_archive_filename (archive_filename : String) :
    Option (Nat × Nat × SnapHash × ArchiveFormat) :=
  match dropToken "incremental-snapshot-".data archive_filename.data with
  | none => none
  | some r1 =>
    let bs := r1.takeWhile isDigitChar
    match expectChar '-' (r1.dropWhile isDigitChar) with
    | none => none
    | some r2 =>
      if bs = [] then none else
      let ds := r2.takeWhile isDigitChar
      match expectChar '-' (r2.dropWhile isDigitChar) with
      | none => none
      | some r3 =>
        if ds = [] then none else
        let hs := r3.takeWhile isAlnumChar
        match expectChar '.' (r3.dropWhile isAlnumChar) with
        | none => none
        | some r5 =>
          if hs = [] then none else
          match parseU64 bs with
          | none => none
          | some base_slot =>
            match parseU64 ds with
            | none => none
            | some slot =>
              match SnapHash.fromStr (String.mk hs) with
              | none => none
              | some hash =>
                match archive_format_from_str (String.mk r5) with
                | none => none
                | some archive_format => some (base_slot, slot, hash, archive_format)

/-! ## Filename building (build_snapshot_archive_path,
build_incremental_snapshot_archive_path) -/

/-- File name part of build_snapshot_archive_path: the format string
snapshot-slot-hash.ext. -/
def build_snapshot_archive_file_name (slot : Nat) (hash : SnapHash)
    (archive_format : ArchiveFormat) : String :=
  String.mk ("snapshot-".data ++ natToDecimal slot ++ '-' :: hash.text.data
    ++ '.' :: (get_archive_ext archive_format).data)

/-- Embedding of build_snapshot_archive_path: joins the output directory with
the built file name. -/
def build_snapshot_archive_path (snapshot_output_dir : String) (slot : Nat)
    (hash : SnapHash) (archive_format : ArchiveFormat) : String :=
  snapshot_output_dir ++ "/" ++ build_snapshot_archive_file_name slot hash archive_format

/-- File name part of build_incremental_snapshot_archive_path: the format
string incremental-snapshot-base_slot-slot-hash.ext. -/
def build_incremental_snapshot_archive_file_name (base_slot slot : Nat)
    (hash : SnapHash) (archive_format : ArchiveFormat) : String :=
  String.mk ("incremental-snapshot-".data ++ natToDecimal base_slot
    ++ '-' :: natToDecimal slot ++ '-' :: hash.text.data
    ++ '.' :: (get_archive_ext archive_format).data)

/-- Embedding of build_incremental_snapshot_archive_path. -/
def build_incremental_snapshot_archive_path (snapshot_output_dir : String)
    (base_slot slot : Nat) (hash : SnapHash) (archive_format : ArchiveFormat) : String :=
  snapshot_output_dir ++ "/"
    ++ build_incremental_snapshot_archive_file_name base_slot slot hash archive_format

/-- File-name component of a path: the suffix after the last slash
(embedding of Path::file_name for the paths this module builds). -/
def path_file_name (path : String) : String :=
  String.mk ((path.data.reverse.takeWhile (fun c => c != '/')).reverse)

/-! ## The snapshot filename grammar as specified

Spec-side descriptions of the two filename grammars (section 4.2/6 of the
spec), used to compare the regex-based parsers against the spec. -/

/-- Spec-side grammar: the string is snapshot-(slot)-(hash).(ext) where the
slot is a nonempty digit run whose value fits in a u64, the hash is a
nonempty alphanumeric token, and the extension is one of the four archive
formats. -/
def snapshot_filename_matches (s : String) (slot : Nat) (hash : SnapHash)
    (archive_format : ArchiveFormat) : Prop :=
  ∃ ds : List Char, ds ≠ [] ∧ (∀ c ∈ ds, isDigitChar c = true) ∧
    decimalValue ds = slot ∧ slot < 2 ^ 64 ∧ SnapHash.wf hash ∧
    s.data = "snapshot-".data ++ ds ++ '-' :: hash.text.data
      ++ '.' :: (get_archive_ext archive_format).data

/-- Spec-side grammar for incremental snapshot archive filenames:
incremental-snapshot-(base_slot)-(slot)-(hash).(ext). -/
def incremental_snapshot_filename_matches (s : String) (base_slot slot : Nat)
    (hash : SnapHash) (archive_format : ArchiveFormat) : Prop :=
  ∃ bs ds : List Char,
    bs ≠ [] ∧ (∀ c ∈ bs, isDigitChar c = true) ∧
    decimalValue bs = base_slot ∧ base_slot < 2 ^ 64 ∧
    ds ≠ [] ∧ (∀ c ∈ ds, isDigitChar c = true) ∧
    decimalValue ds = slot ∧ slot < 2 ^ 64 ∧ SnapHash.wf hash ∧
    s.data = "incremental-snapshot-".data ++ bs ++ '-' :: ds
      ++ '-' :: hash.text.data ++ '.' :: (get_archive_ext archive_format).data

/-! ## Archive discovery and retention (get_snapshot_archives,
get_incremental_snapshot_archives, sorting, highest queries,
purge_old_snapshot_archives)

A snapshot-archive output directory is embedded as the list of its file
names; purging returns the list of file names that remain. -/

structure SnapshotArchiveInfo where
  path : String
  slot : Nat
  hash : SnapHash
  archive_format : ArchiveFormat
deriving DecidableEq, Repr

structure IncrementalSnapshotArchiveInfo where
  path : String
  base_slot : Nat
  slot : Nat
  hash : SnapHash
  archive_format : ArchiveFormat
deriving DecidableEq, Repr

/-- Embedding of get_snapshot_archives: every directory entry whose file
name parses as a full snapshot archive filename. -/
def get_snapshot_archives (snapshot_output_dir : List String) :
    List SnapshotArchiveInfo :=
  snapshot_output_dir.filterMap fun name =>
    (parse_snapshot_archive_filename name).map fun x => ⟨name, x.1, x.2.1, x.2.2⟩

/-- Embedding of sort_snapshot_archives: sort by slot, descending (the Rust
sort is unstable; insertion sort realizes one admissible order). -/
def sort_snapshot_archives (snapshot_archives : List SnapshotArchiveInfo) :
    List SnapshotArchiveInfo :=
  snapshot_archives.insertionSort fun a b => b.slot ≤ a.slot

def get_sorted_snapshot_archives (snapshot_output_dir : List String) :
    List SnapshotArchiveInfo :=
  sort_snapshot_archives (get_snapshot_archives snapshot_output_dir)

/-- Embedding of get_highest_snapshot_archive_info. -/
def get_highest_snapshot_archive_info (snapshot_output_dir : List String) :
    Option SnapshotArchiveInfo :=
  (get_sorted_snapshot_archives snapshot_output_dir).head?

/-- Embedding of get_highest_snapshot_archive_slot. -/
def get_highest_snapshot_archive_slot (snapshot_output_dir : List String) :
    Option Nat :=
  (get_highest_snapshot_archive_info snapshot_output_dir).map (·.slot)

/-- Embedding of get_incremental_snapshot_archives. -/
def get_incremental_snapshot_archives (snapshot_output_dir : List String) :
    List IncrementalSnapshotArchiveInfo :=
  snapshot_output_dir.filterMap fun name =>
    (parse_incremental_snapshot_archive_filename name).map
      fun x => ⟨name, x.1, x.2.1, x.2.2.1, x.2.2.2⟩

/-- Comparison of Option\<Slot\> values with the derived Rust Ord instance
(None is less than Some). -/
def optionSlotLt : Option Nat → Option Nat → Bool
  | none, none => false
  | none, some _ => true
  | some _, none => false
  | some a, some b => a < b

/-- First pass of purge_old_snapshot_archives: the sorted (descending)
full archives lose their last element (Vec::pop keeps the single oldest
unconditionally), and of the rest the iterator skips the first
max(1, maximum_snapshots_to_retain), removing every archive it then
yields; these are the file names removed. -/
def purged_full_paths (snapshot_output_dir : List String)
    (maximum_snapshots_to_retain : Nat) : List String :=
  (((get_sorted_snapshot_archives snapshot_output_dir).dropLast).drop
    (max 1 maximum_snapshots_to_retain)).map (·.path)

/-- The directory contents after the first (full snapshot) pass of
purge_old_snapshot_archives. -/
def dir_after_full_purge (snapshot_output_dir : List String)
    (maximum_snapshots_to_retain : Nat) : List String :=
  snapshot_output_dir.filter fun name =>
    !((purged_full_paths snapshot_output_dir maximum_snapshots_to_retain).contains
      name)

/-- Second pass of purge_old_snapshot_archives: after the full pass the
directory is listed again, and every incremental snapshot archive whose
base slot compares below the highest remaining full snapshot slot is
removed (Some(base_slot) < last_full_snapshot_slot, the derived Option
ordering of the source); these are the file names removed. -/
def purged_incremental_paths (snapshot_output_dir : List String)
    (maximum_snapshots_to_retain : Nat) : List String :=
  ((get_incremental_snapshot_archives
      (dir_after_full_purge snapshot_output_dir maximum_snapshots_to_retain)).filter
    fun a => optionSlotLt (some a.base_slot)
      (get_highest_snapshot_archive_slot
        (dir_after_full_purge snapshot_output_dir
          maximum_snapshots_to_retain))).map (·.path)

/-- Embedding of purge_old_snapshot_archives over a directory listing: the
file names remaining after both passes. Removal failures are logged and
ignored in the source, so removal is modeled as always succeeding. -/
def purge_old_snapshot_archives (snapshot_output_dir : List String)
    (maximum_snapshots_to_retain : Nat) : List String :=
  (dir_after_full_purge snapshot_output_dir maximum_snapshots_to_retain).filter
    fun name =>
      !((purged_incremental_paths snapshot_output_dir
        maximum_snapshots_to_retain).contains name)

/-! ## Errors (SnapshotError) -/

inductive SnapshotError where
  | ioError (msg : String)
  | serializeError (msg : String)
  | archiveGenerationFailure
  | storagePathSymlinkInvalid
  | unpackError (msg : String)
  | accountsPackageSendError
  | pathParseError (msg : String)
  | incompatibleSnapshots (full_snapshot_slot incremental_snapshot_base_slot : Nat)
deriving DecidableEq, Repr

/-- Embedding of get_io_error (the warn! log line is dropped). -/
def get_io_error (error : String) : SnapshotError :=
  SnapshotError.ioError error

/-! ## Capped data-file I/O (serialize_snapshot_data_file_capped,
deserialize_snapshot_data_file_capped, check_deserialize_snapshot_data_file)

A data file is abstracted by its byte size; a serializer by its outcome
together with the number of bytes it writes; a deserializer by its outcome
together with the stream position it leaves behind (the bytes consumed). -/

def MAX_SNAPSHOT_DATA_FILE_SIZE : Nat := 32 * 1024 * 1024 * 1024

/-- Embedding of serialize_snapshot_data_file_capped: run the serializer,
then fail if the bytes written exceed the cap, otherwise return the bytes
written. -/
def serialize_snapshot_data_file_capped (data_file_path : String)
    (maximum_file_size : Nat) (serializer : Except SnapshotError Unit)
    (bytes_written : Nat) : Except SnapshotError Nat :=
  match serializer with
  | Except.error e => Except.error e
  | Except.ok () =>
    if bytes_written > maximum_file_size then
      Except.error (get_io_error
        ("too large snapshot data file to serialize: " ++ data_file_path ++
          " has " ++ toString bytes_written ++ " bytes"))
    else Except.ok bytes_written

/-- Embedding of serialize_snapshot_data_file (the default entry point,
capped at MAX_SNAPSHOT_DATA_FILE_SIZE). -/
def serialize_snapshot_data_file (data_file_path : String)
    (serializer : Except SnapshotError Unit) (bytes_written : Nat) :
    Except SnapshotError Nat :=
  serialize_snapshot_data_file_capped data_file_path MAX_SNAPSHOT_DATA_FILE_SIZE
    serializer bytes_written

/-- Embedding of deserialize_snapshot_data_file_capped: fail if the file
size already exceeds the cap (before the file is opened or the
deserializer consulted); otherwise run the deserializer and, if it
returns, fail exactly when the bytes it consumed differ from the file
size. -/
def deserialize_snapshot_data_file_capped {T : Type} (data_file_path : String)
    (file_size : Nat) (maximum_file_size : Nat)
    (deserializer : Except SnapshotError (T × Nat)) : Except SnapshotError T :=
  if file_size > maximum_file_size then
    Except.error (get_io_error
      ("too large snapshot data file to deserialize: " ++ data_file_path ++
        " has " ++ toString file_size ++ " bytes"))
  else
    match deserializer with
    | Except.error e => Except.error e
    | Except.ok (ret, consumed_size) =>
      if file_size ≠ consumed_size then
        Except.error (get_io_error
          ("invalid snapshot data file: " ++ data_file_path ++ " has " ++
            toString file_size ++ " bytes, however consumed " ++
            toString consumed_size ++ " bytes to deserialize"))
      else Except.ok ret

/-- Embedding of check_deserialize_snapshot_data_file: after a deserializer
ran over a stream, fail exactly when the stream position (consumed bytes)
differs from the file size. -/
def check_deserialize_snapshot_data_file (file_size : Nat) (file_path : String)
    (consumed_size : Nat) : Except SnapshotError Unit :=
  if consumed_size ≠ file_size then
    Except.error (get_io_error
      ("invalid snapshot data file: " ++ file_path ++ " has " ++
        toString file_size ++ " bytes, however consumed " ++
        toString consumed_size ++ " bytes to deserialize"))
  else Except.ok ()

/-! ## Snapshot compatibility (check_are_snapshots_compatible) -/

/-- Embedding of check_are_snapshots_compatible on the two archive paths:
take each path's file name, parse both, and require the incremental
snapshot's base slot to equal the full snapshot's slot; on mismatch fail
with IncompatibleSnapshots carrying both slots. -/
def check_are_snapshots_compatible (full_snapshot_archive_path : String)
    (incremental_snapshot_archive_path : String) :
    Except SnapshotError (Nat × Nat) :=
  match parse_snapshot_archive_filename (path_file_name full_snapshot_archive_path) with
  | none => Except.error (SnapshotError.pathParseError
      "Could not parse full snapshot archive's filename!")
  | some (full_snapshot_slot, _, _) =>
    match parse_incremental_snapshot_archive_filename
        (path_file_name incremental_snapshot_archive_path) with
    | none => Except.error (SnapshotError.pathParseError
        "Could not parse incremental snapshot archive's filename!")
    | some (incremental_snapshot_base_slot, incremental_snapshot_slot, _, _) =>
      if full_snapshot_slot = incremental_snapshot_base_slot then
        Except.ok (full_snapshot_slot, incremental_snapshot_slot)
      else
        Except.error (SnapshotError.incompatibleSnapshots
          full_snapshot_slot incremental_snapshot_base_slot)

/-! ## Incremental snapshot packaging (package_incremental_snapshot)

Only the assertion at the head of the function is relevant here: the
storage input is embedded as the list of storages, each the list of the
slots of its entries; a failed assert! aborts the process, which is a
distinct outcome from any returned error. -/

inductive PackageStep where
  | assertAbort (msg : String)
  | proceed
deriving DecidableEq, Repr

/-- Assertion message of package_incremental_snapshot. -/
def incrementalAssertMsg : String :=
  "Incremental snapshot package must only contain storage entries where slot > incremental snapshot base slot (i.e. full snapshot slot)!"

/-- Embedding of the head of package_incremental_snapshot: assert that
every storage entry's slot strictly exceeds the incremental snapshot base
slot, aborting the process when the assertion fails, and otherwise proceed
to build the package. -/
def package_incremental_snapshot (incremental_snapshot_base_slot : Nat)
    (snapshot_storages : List (List Nat)) : PackageStep :=
  if snapshot_storages.all
      (fun storage => storage.all
        (fun entry_slot => incremental_snapshot_base_slot < entry_slot)) then
    PackageStep.proceed
  else
    PackageStep.assertAbort incrementalAssertMsg

/-! ## Archive writing as an event trace (archive_snapshot_package)

For the temporal claim, archive_snapshot_package is embedded as a function
of the outcomes of its fallible steps, in source order, producing the
trace of the externally visible events of interest (creating the temp
archive file, atomically renaming it to the public hash-bearing name, and
invoking the purge) together with its result. -/

inductive ArchiveEvent where
  | createTempArchive
  | renamePublic
  | purgeInvoked
deriving DecidableEq, Repr

inductive StorageStepOutcome where
  | ok
  | ioFailure (e : SnapshotError)
  | symlinkInvalid
deriving DecidableEq, Repr

/-- Outcomes of the fallible steps of archive_snapshot_package, in the
order the source performs them. -/
structure ArchiveEnv where
  serializeStatusCacheErr : Option SnapshotError
  createTarDirErr : Option SnapshotError
  createStagingDirErr : Option SnapshotError
  symlinkSnapshotsErr : Option SnapshotError
  storageSteps : List StorageStepOutcome
  versionFileErr : Option SnapshotError
  tarSpawnErr : Option SnapshotError
  tarStdoutAvailable : Bool
  archiveWriteErr : Option SnapshotError
  tarWaitErr : Option SnapshotError
  tarExitSuccess : Bool
  metadataErr : Option SnapshotError
  renameErr : Option SnapshotError

/-- First failure among the per-storage flush/symlink/validity steps. -/
def firstStorageError : List StorageStepOutcome → Option SnapshotError
  | [] => none
  | StorageStepOutcome.ok :: rest => firstStorageError rest
  | StorageStepOutcome.ioFailure e :: _ => some e
  | StorageStepOutcome.symlinkInvalid :: _ =>
    some SnapshotError.storagePathSymlinkInvalid

/-- Embedding of archive_snapshot_package's control flow: each fallible
step happens in source order, an error returns immediately, the temp
archive file is created only once tar's stdout is available, the rename to
the public hash-bearing filename happens only after the tar exit status
and the metadata call succeed, and purge_old_snapshot_archives runs only
after a successful rename. -/
def archive_snapshot_package (env : ArchiveEnv) :
    List ArchiveEvent × Except SnapshotError Unit :=
  match env.serializeStatusCacheErr with
  | some e => ([], Except.error e)
  | none =>
  match env.createTarDirErr with
  | some e => ([], Except.error e)
  | none =>
  match env.createStagingDirErr with
  | some e => ([], Except.error e)
  | none =>
  match env.symlinkSnapshotsErr with
  | some e => ([], Except.error e)
  | none =>
  match firstStorageError env.storageSteps with
  | some e => ([], Except.error e)
  | none =>
  match env.versionFileErr with
  | some e => ([], Except.error e)
  | none =>
  match env.tarSpawnErr with
  | some e => ([], Except.error e)
  | none =>
  if env.tarStdoutAvailable = false then
    ([], Except.error (SnapshotError.ioError "tar stdout unavailable"))
  else
  match env.archiveWriteErr with
  | some e => ([ArchiveEvent.createTempArchive], Except.error e)
  | none =>
  match env.tarWaitErr with
  | some e => ([ArchiveEvent.createTempArchive], Except.error e)
  | none =>
  if env.tarExitSuccess = false then
    ([ArchiveEvent.createTempArchive],
      Except.error SnapshotError.archiveGenerationFailure)
  else
  match env.metadataErr with
  | some e => ([ArchiveEvent.createTempArchive], Except.error e)
  | none =>
  match env.renameErr with
  | some e => ([ArchiveEvent.createTempArchive], Except.error e)
  | none =>
    ([ArchiveEvent.createTempArchive, ArchiveEvent.renamePublic,
      ArchiveEvent.purgeInvoked], Except.ok ())

/-! ## Snapshot versions (SnapshotVersion, FromStr) -/

inductive SnapshotVersion where
  | V1_2_0
deriving DecidableEq, Repr

def VERSION_STRING_V1_2_0 : String := "1.2.0"

/-- Embedding of SnapshotVersion::from_str: drop one leading v or V
(ASCII-case-insensitively) and accept exactly the single supported version
string. -/
def snapshot_version_from_str (version_string : String) : Option SnapshotVersion :=
  let rest :=
    match version_string.data with
    | [] => version_string
    | c :: cs => if c = 'v' ∨ c = 'V' then String.mk cs else version_string
  if rest = VERSION_STRING_V1_2_0 then some SnapshotVersion.V1_2_0 else none

/-! ## Bank snapshot round trip (bank_to_snapshot_archive,
bank_from_snapshot_archive)

The bank, its serde, the tar pipeline and the accounts-hash computation
live outside src (bank.rs, serde_snapshot.rs, hardened_unpack.rs are not
part of this source tree), so those parts are modelled from the spec; the
capped data-file checks, the version check and the orchestration order are
taken from snapshot_utils.rs. -/

/-- Modelled from the spec: a complete bank state, carrying the slot, the
storage shards (each a shard slot with its bytes) and the status-cache
deltas (spec section 3: data model; section 8: arbitrary shards and
status-cache deltas). -/
structure Bank where
  slot : Nat
  shards : List (Nat × List Nat)
  statusCacheDeltas : List Nat
deriving DecidableEq, Repr

/-- Modelled from the spec: the content hash, a digest over the storage
shards (glossary: digest over reconstructed state). -/
def bank_accounts_hash (shards : List (Nat × List Nat)) : Nat :=
  shards.foldl (fun a s => a * 31 + s.1 + s.2.foldl (fun b x => b * 17 + x) 0) 7

/-- Modelled from the spec: contents of a capped snapshot data file; either
the serialized state image or the serialized status-cache deltas. -/
inductive SnapData where
  | state (slot : Nat) (accountsHash : Nat) (shardMeta : List (Nat × Nat))
  | cache (deltas : List Nat)
deriving DecidableEq, Repr

/-- Modelled from the spec: the byte size of a serialized data file, one
byte of framing plus the payload of each element (a status-cache delta
token stands for a delta whose serialized payload is that many bytes plus
one of framing). -/
def snapDataSize : SnapData → Nat
  | SnapData.state _ _ shardMeta => 1 + shardMeta.length
  | SnapData.cache deltas => 1 + (deltas.map (fun d => 1 + d)).sum

/-- Modelled from the spec: bank_to_stream (serde_snapshot, not under src)
writes the state image: the slot, the accounts hash, and the metadata of
each storage shard; shard bytes travel in the accounts/ directory, not in
this file. -/
def bank_to_stream (bank : Bank) : SnapData :=
  SnapData.state bank.slot (bank_accounts_hash bank.shards)
    (bank.shards.map fun s => (s.1, s.2.length))

/-- Modelled from the spec: bank_from_streams (serde_snapshot, not under
src) rebuilds a bank from the state image and the unpacked account shard
files, checking that the shard metadata matches the unpacked files; the
status cache is attached later, so it starts empty. Returns the rebuilt
bank together with the accounts hash recorded in the image. -/
def bank_from_streams (data : SnapData)
    (unpacked_accounts : List (Nat × List Nat)) : Option (Bank × Nat) :=
  match data with
  | SnapData.state slot recordedHash shardMeta =>
    if shardMeta = unpacked_accounts.map (fun s => (s.1, s.2.length)) then
      some (⟨slot, unpacked_accounts, []⟩, recordedHash)
    else none
  | SnapData.cache _ => none

/-- Modelled from the spec: deserializing the status-cache data file. -/
def status_cache_from_stream : SnapData → Option (List Nat)
  | SnapData.cache deltas => some deltas
  | SnapData.state _ _ _ => none

/-- A written snapshot data file: its contents and its on-disk size. -/
structure DataFile where
  content : SnapData
  size : Nat
deriving DecidableEq, Repr

/-- Write one snapshot data file through the capped serializer (the bytes
written are the size of the serialized content). -/
def write_snapshot_data_file (data_file_path : String) (content : SnapData) :
    Except SnapshotError DataFile :=
  match serialize_snapshot_data_file data_file_path (Except.ok ())
      (snapDataSize content) with
  | Except.error e => Except.error e
  | Except.ok consumed_size => Except.ok ⟨content, consumed_size⟩

/-- Read one snapshot data file through the capped deserializer (a
successful deserializer consumes exactly the bytes the serializer wrote). -/
def read_snapshot_data_file {T : Type} (data_file_path : String)
    (file : DataFile) (des : SnapData → Option T) : Except SnapshotError T :=
  deserialize_snapshot_data_file_capped data_file_path file.size
    MAX_SNAPSHOT_DATA_FILE_SIZE
    (match des file.content with
     | some t => Except.ok (t, file.size)
     | none => Except.error (SnapshotError.serializeError "deserialize failure"))

/-- Modelled from the spec: the on-disk layout of a full snapshot archive
(section 6): the accounts/ shard files, the snapshots/slot/slot state
image, snapshots/status_cache, and the plaintext version file. Unpacking
an archive reproduces these contents exactly (section 8: unpack is
deterministic and byte-identical), so the archive value doubles as the
unpacked tree. -/
structure SnapshotArchiveModel where
  accounts : List (Nat × List Nat)
  snapshotSlot : Nat
  snapshotFile : DataFile
  statusCacheFile : DataFile
  version : String
deriving DecidableEq, Repr

/-- Embedding of bank_to_snapshot_archive for a complete bank: serialize
the state image to a capped data file (add_snapshot), then serialize the
status-cache deltas to a capped data file and produce the archive
(archive_snapshot_package); each capped write can fail on the 32 GiB
cap. -/
def bank_to_snapshot_archive (bank : Bank) :
    Except SnapshotError SnapshotArchiveModel :=
  match write_snapshot_data_file "bank-state" (bank_to_stream bank) with
  | Except.error e => Except.error e
  | Except.ok stateFile =>
  match write_snapshot_data_file "status_cache"
      (SnapData.cache bank.statusCacheDeltas) with
  | Except.error e => Except.error e
  | Except.ok cacheFile =>
    Except.ok ⟨bank.shards, bank.slot, stateFile, cacheFile,
      VERSION_STRING_V1_2_0⟩

/-- Outcome of restoring a bank: a rebuilt bank, a returned error, or the
process-fatal panic of the post-restore integrity verification. -/
inductive RestoreOutcome where
  | ok (bank : Bank)
  | err (e : SnapshotError)
  | verifyPanic (slot : Nat)
deriving DecidableEq, Repr

/-- Embedding of bank_from_snapshot_archive (with integrity verification
enabled): unpack the archive, check the version file, deserialize the
state image through the capped reader, rebuild the bank from it and the
unpacked shard files, deserialize and re-attach the status-cache deltas,
and finally verify the recomputed accounts hash against the recorded one,
panicking on mismatch. -/
def bank_from_snapshot_archive (archive : SnapshotArchiveModel) :
    RestoreOutcome :=
  match snapshot_version_from_str archive.version with
  | none => RestoreOutcome.err
      (get_io_error ("unsupported snapshot version: " ++ archive.version))
  | some SnapshotVersion.V1_2_0 =>
  match read_snapshot_data_file "bank-state" archive.snapshotFile
      (fun d => bank_from_streams d archive.accounts) with
  | Except.error e => RestoreOutcome.err e
  | Except.ok (bank, recordedHash) =>
  match read_snapshot_data_file "status_cache" archive.statusCacheFile
      status_cache_from_stream with
  | Except.error e => RestoreOutcome.err e
  | Except.ok slot_deltas =>
    let bank := { bank with
      statusCacheDeltas := bank.statusCacheDeltas ++ slot_deltas }
    if bank_accounts_hash bank.shards = recordedHash then
      RestoreOutcome.ok bank
    else
      RestoreOutcome.verifyPanic bank.slot

/-! # Theorems -/

/-! ## Parser helper lemmas -/

theorem string_mk_data (s : String) : String.mk s.data = s := rfl

theorem dropToken_self_append (ps rest : List Char) :
    dropToken ps (ps ++ rest) = some rest := by
  induction ps with
  | nil => rfl
  | cons p ps ih => simp [dropToken, ih]

theorem dropToken_eq_some {ps s r : List Char} (h : dropToken ps s = some r) :
    s = ps ++ r := by
  induction ps generalizing s with
  | nil => simpa [dropToken] using h
  | cons p ps ih =>
    cases s with
    | nil => cases h
    | cons c cs =>
      rw [show dropToken (p :: ps) (c :: cs)
          = if c = p then dropToken ps cs else none from rfl] at h
      by_cases hc : c = p
      · rw [if_pos hc] at h
        subst hc
        rw [List.cons_append, ih h]
      · rw [if_neg hc] at h
        cases h

theorem expectChar_eq_some {y : Char} {s r : List Char}
    (h : expectChar y s = some r) : s = y :: r := by
  cases s with
  | nil => cases h
  | cons c cs =>
    rw [show expectChar y (c :: cs) = if c = y then some cs else none from rfl] at h
    by_cases hc : c = y
    · rw [if_pos hc] at h
      subst hc
      rw [Option.some.inj h]
    · rw [if_neg hc] at h
      cases h

theorem expectChar_self (y : Char) (r : List Char) :
    expectChar y (y :: r) = some r := by
  simp [expectChar]

theorem takeWhile_all_append {p : Char → Bool} {xs : List Char} (y : Char)
    (rest : List Char) (hxs : ∀ c ∈ xs, p c = true) (hy : p y = false) :
    (xs ++ y :: rest).takeWhile p = xs ∧ (xs ++ y :: rest).dropWhile p = y :: rest := by
  induction xs with
  | nil => simp [List.takeWhile_cons, List.dropWhile_cons, hy]
  | cons x xs ih =>
    have hx : p x = true := hxs x (List.mem_cons_self x xs)
    have h2 := ih (fun c hc => hxs c (List.mem_cons_of_mem x hc))
    simp [List.takeWhile_cons, List.dropWhile_cons, hx, h2.1, h2.2]

theorem parseU64_eq_some {cs : List Char} {n : Nat} (h : parseU64 cs = some n) :
    decimalValue cs = n ∧ n < 2 ^ 64 := by
  unfold parseU64 at h
  by_cases hlt : decimalValue cs < 2 ^ 64
  · rw [if_pos hlt] at h
    obtain rfl := Option.some.inj h
    exact ⟨rfl, hlt⟩
  · rw [if_neg hlt] at h
    cases h

theorem parseU64_of_lt {cs : List Char} {n : Nat} (hval : decimalValue cs = n)
    (hlt : n < 2 ^ 64) : parseU64 cs = some n := by
  subst hval
  unfold parseU64
  rw [if_pos hlt]

theorem snapHash_fromStr_eq_some {s : String} {h : SnapHash}
    (he : SnapHash.fromStr s = some h) : h.text = s ∧ SnapHash.wf h := by
  unfold SnapHash.fromStr at he
  by_cases hc : s.data ≠ [] ∧ s.data.all isAlnumChar
  · rw [if_pos hc] at he
    obtain rfl := Option.some.inj he
    exact ⟨rfl, hc.1, List.all_eq_true.mp hc.2⟩
  · rw [if_neg hc] at he
    cases he

theorem snapHash_fromStr_of_wf (h : SnapHash) (hw : SnapHash.wf h) :
    SnapHash.fromStr h.text = some h := by
  unfold SnapHash.fromStr
  rw [if_pos ⟨hw.1, List.all_eq_true.mpr hw.2⟩]

theorem archive_format_from_str_eq_some {s : String} {f : ArchiveFormat}
    (h : archive_format_from_str s = some f) : s = get_archive_ext f := by
  unfold archive_format_from_str at h
  split_ifs at h with h1 h2 h3 h4
  · obtain rfl := Option.some.inj h
    exact h1
  · obtain rfl := Option.some.inj h
    exact h2
  · obtain rfl := Option.some.inj h
    exact h3
  · obtain rfl := Option.some.inj h
    exact h4

theorem archive_format_from_str_ext (f : ArchiveFormat) :
    archive_format_from_str (get_archive_ext f) = some f := by
  cases f <;> rfl

/-! ## Decimal rendering lemmas -/

theorem decimalValue_append (xs : List Char) (c : Char) :
    decimalValue (xs ++ [c]) = 10 * decimalValue xs + (c.toNat - 48) := by
  unfold decimalValue
  rw [List.foldl_append]
  rfl

theorem natDigitChar_toNat {d : Nat} (hd : d < 10) :
    (natDigitChar d).toNat = 48 + d := by
  have h : ∀ d, d < 10 → (natDigitChar d).toNat = 48 + d := by decide
  exact h d hd

theorem natDigitChar_isDigit {d : Nat} (hd : d < 10) :
    isDigitChar (natDigitChar d) = true := by
  have h : ∀ d, d < 10 → isDigitChar (natDigitChar d) = true := by decide
  exact h d hd

theorem natToDecimalAux_val : ∀ fuel n : Nat, n ≤ fuel →
    decimalValue (natToDecimalAux fuel n) = n := by
  intro fuel
  induction fuel with
  | zero =>
    intro n hn
    obtain rfl : n = 0 := Nat.le_zero.mp hn
    rfl
  | succ fuel ih =>
    intro n hn
    unfold natToDecimalAux
    by_cases h0 : n = 0
    · subst h0
      rfl
    · rw [if_neg h0, decimalValue_append]
      have hdiv : n / 10 ≤ fuel := by
        have := Nat.div_lt_self (Nat.pos_of_ne_zero h0) (by norm_num : 1 < 10)
        omega
      rw [ih (n / 10) hdiv, natDigitChar_toNat (Nat.mod_lt n (by norm_num))]
      omega

theorem natToDecimal_val (n : Nat) : decimalValue (natToDecimal n) = n := by
  unfold natToDecimal
  by_cases h0 : n = 0
  · subst h0
    rfl
  · rw [if_neg h0]
    exact natToDecimalAux_val n n le_rfl

theorem natToDecimalAux_digits : ∀ fuel n : Nat, ∀ c ∈ natToDecimalAux fuel n,
    isDigitChar c = true := by
  intro fuel
  induction fuel with
  | zero =>
    intro n c hc
    cases hc
  | succ fuel ih =>
    intro n c hc
    unfold natToDecimalAux at hc
    by_cases h0 : n = 0
    · rw [if_pos h0] at hc
      cases hc
    · rw [if_neg h0] at hc
      rcases List.mem_append.mp hc with h | h
      · exact ih _ _ h
      · obtain rfl := List.mem_singleton.mp h
        exact natDigitChar_isDigit (Nat.mod_lt n (by norm_num))

theorem natToDecimal_digits {n : Nat} : ∀ c ∈ natToDecimal n,
    isDigitChar c = true := by
  intro c hc
  unfold natToDecimal at hc
  by_cases h0 : n = 0
  · rw [if_pos h0] at hc
    obtain rfl := List.mem_singleton.mp hc
    rfl
  · rw [if_neg h0] at hc
    exact natToDecimalAux_digits n n c hc

theorem natToDecimal_ne_nil (n : Nat) : natToDecimal n ≠ [] := by
  unfold natToDecimal
  by_cases h0 : n = 0
  · rw [if_pos h0]
    simp
  · rw [if_neg h0]
    cases n with
    | zero => exact absurd rfl h0
    | succ m =>
      unfold natToDecimalAux
      rw [if_neg h0]
      simp

/-! ## Parser soundness and completeness -/

theorem parse_snapshot_archive_filename_sound {s : String} {slot : Nat}
    {hash : SnapHash} {fmt : ArchiveFormat}
    (h : parse_snapshot_archive_filename s = some (slot, hash, fmt)) :
    snapshot_filename_matches s slot hash fmt := by
  unfold parse_snapshot_archive_filename at h
  cases hdt : dropToken "snapshot-".data s.data with
  | none =>
    simp only [hdt] at h
    exact Option.noConfusion h
  | some r1 =>
  simp only [hdt] at h
  cases hec : expectChar '-' (r1.dropWhile isDigitChar) with
  | none =>
    simp only [hec] at h
    exact Option.noConfusion h
  | some r3 =>
  simp only [hec] at h
  by_cases hds : r1.takeWhile isDigitChar = []
  · simp only [if_pos hds] at h
    exact Option.noConfusion h
  simp only [if_neg hds] at h
  cases hec2 : expectChar '.' (r3.dropWhile isAlnumChar) with
  | none =>
    simp only [hec2] at h
    exact Option.noConfusion h
  | some r5 =>
  simp only [hec2] at h
  by_cases hhs : r3.takeWhile isAlnumChar = []
  · simp only [if_pos hhs] at h
    exact Option.noConfusion h
  simp only [if_neg hhs] at h
  cases hp : parseU64 (r1.takeWhile isDigitChar) with
  | none =>
    simp only [hp] at h
    exact Option.noConfusion h
  | some slot2 =>
  simp only [hp] at h
  cases hh : SnapHash.fromStr (String.mk (r3.takeWhile isAlnumChar)) with
  | none =>
    simp only [hh] at h
    exact Option.noConfusion h
  | some hash2 =>
  simp only [hh] at h
  cases hf : archive_format_from_str (String.mk r5) with
  | none =>
    simp only [hf] at h
    exact Option.noConfusion h
  | some fmt2 =>
  simp only [hf] at h
  simp only [Option.some.injEq, Prod.mk.injEq] at h
  obtain ⟨e1, e2, e3⟩ := h
  subst e1
  subst e2
  subst e3
  obtain ⟨hval, hlt⟩ := parseU64_eq_some hp
  obtain ⟨htext, hwf⟩ := snapHash_fromStr_eq_some hh
  have hext : r5 = (get_archive_ext fmt2).data := by
    have := congrArg String.data (archive_format_from_str_eq_some hf)
    simpa using this
  have hhsdata : hash2.text.data = r3.takeWhile isAlnumChar := by
    rw [htext]
  have hchain : s.data = "snapshot-".data
      ++ (r1.takeWhile isDigitChar
        ++ ('-' :: (r3.takeWhile isAlnumChar
          ++ ('.' :: (get_archive_ext fmt2).data)))) := by
    calc s.data
        = "snapshot-".data ++ r1 := dropToken_eq_some hdt
      _ = "snapshot-".data
          ++ (r1.takeWhile isDigitChar ++ r1.dropWhile isDigitChar) := by
          rw [List.takeWhile_append_dropWhile]
      _ = "snapshot-".data
          ++ (r1.takeWhile isDigitChar ++ ('-' :: r3)) := by
          rw [expectChar_eq_some hec]
      _ = "snapshot-".data
          ++ (r1.takeWhile isDigitChar ++ ('-' ::
            (r3.takeWhile isAlnumChar ++ r3.dropWhile isAlnumChar))) := by
          rw [List.takeWhile_append_dropWhile]
      _ = "snapshot-".data
          ++ (r1.takeWhile isDigitChar ++ ('-' ::
            (r3.takeWhile isAlnumChar ++ ('.' :: r5)))) := by
          rw [expectChar_eq_some hec2]
      _ = "snapshot-".data
          ++ (r1.takeWhile isDigitChar ++ ('-' ::
            (r3.takeWhile isAlnumChar
              ++ ('.' :: (get_archive_ext fmt2).data)))) := by
          rw [hext]
  refine ⟨r1.takeWhile isDigitChar, hds,
    fun c hc => List.mem_takeWhile_imp hc, hval, hlt, hwf, ?_⟩
  rw [hhsdata, hchain]
  simp [List.append_assoc]

theorem parse_snapshot_archive_filename_complete {s : String} {slot : Nat}
    {hash : SnapHash} {fmt : ArchiveFormat}
    (h : snapshot_filename_matches s slot hash fmt) :
    parse_snapshot_archive_filename s = some (slot, hash, fmt) := by
  obtain ⟨ds, hne, hdig, hval, hlt, hwf, hs⟩ := h
  have hs' : s.data = "snapshot-".data
      ++ (ds ++ '-' :: (hash.text.data ++ '.' :: (get_archive_ext fmt).data)) := by
    rw [hs]
    simp [List.append_assoc]
  have h1 := takeWhile_all_append (p := isDigitChar) '-'
    (hash.text.data ++ '.' :: (get_archive_ext fmt).data) hdig (by decide)
  have h2 := takeWhile_all_append (p := isAlnumChar) '.'
    ((get_archive_ext fmt).data) hwf.2 (by decide)
  unfold parse_snapshot_archive_filename
  rw [hs', dropToken_self_append]
  simp only [h1.1, h1.2, expectChar_self, if_neg hne, h2.1, h2.2,
    if_neg hwf.1, parseU64_of_lt hval hlt, string_mk_data hash.text,
    snapHash_fromStr_of_wf hash hwf, string_mk_data (get_archive_ext fmt),
    archive_format_from_str_ext]

theorem parse_incremental_snapshot_archive_filename_sound {s : String}
    {base_slot slot : Nat} {hash : SnapHash} {fmt : ArchiveFormat}
    (h : parse_incremental_snapshot_archive_filename s
      = some (base_slot, slot, hash, fmt)) :
    incremental_snapshot_filename_matches s base_slot slot hash fmt := by
  unfold parse_incremental_snapshot_archive_filename at h
  cases hdt : dropToken "incremental-snapshot-".data s.data with
  | none =>
    simp only [hdt] at h
    exact Option.noConfusion h
  | some r1 =>
  simp only [hdt] at h
  cases hec : expectChar '-' (r1.dropWhile isDigitChar) with
  | none =>
    simp only [hec] at h
    exact Option.noConfusion h
  | some r2 =>
  simp only [hec] at h
  by_cases hbs : r1.takeWhile isDigitChar = []
  · simp only [if_pos hbs] at h
    exact Option.noConfusion h
  simp only [if_neg hbs] at h
  cases hec1 : expectChar '-' (r2.dropWhile isDigitChar) with
  | none =>
    simp only [hec1] at h
    exact Option.noConfusion h
  | some r3 =>
  simp only [hec1] at h
  by_cases hds : r2.takeWhile isDigitChar = []
  · simp only [if_pos hds] at h
    exact Option.noConfusion h
  simp only [if_neg hds] at h
  cases hec2 : expectChar '.' (r3.dropWhile isAlnumChar) with
  | none =>
    simp only [hec2] at h
    exact Option.noConfusion h
  | some r5 =>
  simp only [hec2] at h
  by_cases hhs : r3.takeWhile isAlnumChar = []
  · simp only [if_pos hhs] at h
    exact Option.noConfusion h
  simp only [if_neg hhs] at h
  cases hpb : parseU64 (r1.takeWhile isDigitChar) with
  | none =>
    simp only [hpb] at h
    exact Option.noConfusion h
  | some base2 =>
  simp only [hpb] at h
  cases hp : parseU64 (r2.takeWhile isDigitChar) with
  | none =>
    simp only [hp] at h
    exact Option.noConfusion h
  | some slot2 =>
  simp only [hp] at h
  cases hh : SnapHash.fromStr (String.mk (r3.takeWhile isAlnumChar)) with
  | none =>
    simp only [hh] at h
    exact Option.noConfusion h
  | some hash2 =>
  simp only [hh] at h
  cases hf : archive_format_from_str (String.mk r5) with
  | none =>
    simp only [hf] at h
    exact Option.noConfusion h
  | some fmt2 =>
  simp only [hf] at h
  simp only [Option.some.injEq, Prod.mk.injEq] at h
  obtain ⟨e1, e2, e3, e4⟩ := h
  subst e1
  subst e2
  subst e3
  subst e4
  obtain ⟨hbval, hblt⟩ := parseU64_eq_some hpb
  obtain ⟨hval, hlt⟩ := parseU64_eq_some hp
  obtain ⟨htext, hwf⟩ := snapHash_fromStr_eq_some hh
  have hext : r5 = (get_archive_ext fmt2).data := by
    have := congrArg String.data (archive_format_from_str_eq_some hf)
    simpa using this
  have hhsdata : hash2.text.data = r3.takeWhile isAlnumChar := by
    rw [htext]
  have hchain : s.data = "incremental-snapshot-".data
      ++ (r1.takeWhile isDigitChar
        ++ ('-' :: (r2.takeWhile isDigitChar
          ++ ('-' :: (r3.takeWhile isAlnumChar
            ++ ('.' :: (get_archive_ext fmt2).data)))))) := by
    calc s.data
        = "incremental-snapshot-".data ++ r1 := dropToken_eq_some hdt
      _ = "incremental-snapshot-".data
          ++ (r1.takeWhile isDigitChar ++ r1.dropWhile isDigitChar) := by
          rw [List.takeWhile_append_dropWhile]
      _ = "incremental-snapshot-".data
          ++ (r1.takeWhile isDigitChar ++ ('-' :: r2)) := by
          rw [expectChar_eq_some hec]
      _ = "incremental-snapshot-".data
          ++ (r1.takeWhile isDigitChar ++ ('-' ::
            (r2.takeWhile isDigitChar ++ r2.dropWhile isDigitChar))) := by
          rw [List.takeWhile_append_dropWhile]
      _ = "incremental-snapshot-".data
          ++ (r1.takeWhile isDigitChar ++ ('-' ::
            (r2.takeWhile isDigitChar ++ ('-' :: r3)))) := by
          rw [expectChar_eq_some hec1]
      _ = "incremental-snapshot-".data
          ++ (r1.takeWhile isDigitChar ++ ('-' ::
            (r2.takeWhile isDigitChar ++ ('-' ::
              (r3.takeWhile isAlnumChar ++ r3.dropWhile isAlnumChar))))) := by
          rw [List.takeWhile_append_dropWhile]
      _ = "incremental-snapshot-".data
          ++ (r1.takeWhile isDigitChar ++ ('-' ::
            (r2.takeWhile isDigitChar ++ ('-' ::
              (r3.takeWhile isAlnumChar ++ ('.' :: r5)))))) := by
          rw [expectChar_eq_some hec2]
      _ = "incremental-snapshot-".data
          ++ (r1.takeWhile isDigitChar ++ ('-' ::
            (r2.takeWhile isDigitChar ++ ('-' ::
              (r3.takeWhile isAlnumChar
                ++ ('.' :: (get_archive_ext fmt2).data)))))) := by
          rw [hext]
  refine ⟨r1.takeWhile isDigitChar, r2.takeWhile isDigitChar, hbs,
    fun c hc => List.mem_takeWhile_imp hc, hbval, hblt, hds,
    fun c hc => List.mem_takeWhile_imp hc, hval, hlt, hwf, ?_⟩
  rw [hhsdata, hchain]
  simp [List.append_assoc]

theorem parse_incremental_snapshot_archive_filename_complete {s : String}
    {base_slot slot : Nat} {hash : SnapHash} {fmt : ArchiveFormat}
    (h : incremental_snapshot_filename_matches s base_slot slot hash fmt) :
    parse_incremental_snapshot_archive_filename s
      = some (base_slot, slot, hash, fmt) := by
  obtain ⟨bs, ds, hbne, hbdig, hbval, hblt, hne, hdig, hval, hlt, hwf, hs⟩ := h
  have hs' : s.data = "incremental-snapshot-".data
      ++ (bs ++ '-' :: (ds ++ '-' :: (hash.text.data
        ++ '.' :: (get_archive_ext fmt).data))) := by
    rw [hs]
    simp [List.append_assoc]
  have h0 := takeWhile_all_append (p := isDigitChar) '-'
    (ds ++ '-' :: (hash.text.data ++ '.' :: (get_archive_ext fmt).data))
    hbdig (by decide)
  have h1 := takeWhile_all_append (p := isDigitChar) '-'
    (hash.text.data ++ '.' :: (get_archive_ext fmt).data) hdig (by decide)
  have h2 := takeWhile_all_append (p := isAlnumChar) '.'
    ((get_archive_ext fmt).data) hwf.2 (by decide)
  unfold parse_incremental_snapshot_archive_filename
  rw [hs', dropToken_self_append]
  simp only [h0.1, h0.2, h1.1, h1.2, expectChar_self, if_neg hbne, if_neg hne,
    h2.1, h2.2, if_neg hwf.1, parseU64_of_lt hbval hblt,
    parseU64_of_lt hval hlt, string_mk_data hash.text,
    snapHash_fromStr_of_wf hash hwf, string_mk_data (get_archive_ext fmt),
    archive_format_from_str_ext]

/-! ## Parse disjointness and path file names -/

theorem parse_full_head {s : String} {x : Nat × SnapHash × ArchiveFormat}
    (h : parse_snapshot_archive_filename s = some x) :
    ∃ r, s.data = 's' :: r := by
  unfold parse_snapshot_archive_filename at h
  cases hdt : dropToken "snapshot-".data s.data with
  | none =>
    simp only [hdt] at h
    exact Option.noConfusion h
  | some r1 =>
    refine ⟨"napshot-".data ++ r1, ?_⟩
    rw [dropToken_eq_some hdt]
    rfl

theorem parse_incremental_head {s : String}
    {x : Nat × Nat × SnapHash × ArchiveFormat}
    (h : parse_incremental_snapshot_archive_filename s = some x) :
    ∃ r, s.data = 'i' :: r := by
  unfold parse_incremental_snapshot_archive_filename at h
  cases hdt : dropToken "incremental-snapshot-".data s.data with
  | none =>
    simp only [hdt] at h
    exact Option.noConfusion h
  | some r1 =>
    refine ⟨"ncremental-snapshot-".data ++ r1, ?_⟩
    rw [dropToken_eq_some hdt]
    rfl

theorem parse_incremental_of_full {s : String} {x : Nat × SnapHash × ArchiveFormat}
    (h : parse_snapshot_archive_filename s = some x) :
    parse_incremental_snapshot_archive_filename s = none := by
  obtain ⟨r, hr⟩ := parse_full_head h
  unfold parse_incremental_snapshot_archive_filename
  rw [hr]
  rfl

theorem parse_full_of_incremental {s : String}
    {x : Nat × Nat × SnapHash × ArchiveFormat}
    (h : parse_incremental_snapshot_archive_filename s = some x) :
    parse_snapshot_archive_filename s = none := by
  obtain ⟨r, hr⟩ := parse_incremental_head h
  unfold parse_snapshot_archive_filename
  rw [hr]
  rfl

theorem digit_ne_slash {c : Char} (h : isDigitChar c = true) : c ≠ '/' := by
  intro he
  subst he
  exact absurd h (by decide)

theorem alnum_ne_slash {c : Char} (h : isAlnumChar c = true) : c ≠ '/' := by
  intro he
  subst he
  exact absurd h (by decide)

theorem path_file_name_append {dir name : String}
    (hns : ∀ c ∈ name.data, c ≠ '/') :
    path_file_name (dir ++ "/" ++ name) = name := by
  unfold path_file_name
  have hdata : (dir ++ "/" ++ name).data = (dir.data ++ ['/']) ++ name.data := by
    rw [String.data_append, String.data_append]
  rw [hdata, List.reverse_append]
  have h2 : (dir.data ++ ['/']).reverse = '/' :: dir.data.reverse := by
    rw [List.reverse_append]
    rfl
  rw [h2]
  have h3 := takeWhile_all_append (p := fun c => c != '/') '/' dir.data.reverse
    (fun c hc => by
      have hcn := hns c (List.mem_reverse.mp hc)
      simp [bne_iff_ne]
      exact hcn)
    (by decide)
  rw [h3.1, List.reverse_reverse, string_mk_data]

theorem build_snapshot_archive_file_name_no_slash (slot : Nat) (hash : SnapHash)
    (archive_format : ArchiveFormat) (hw : SnapHash.wf hash) :
    ∀ c ∈ (build_snapshot_archive_file_name slot hash archive_format).data,
      c ≠ '/' := by
  intro c hc
  have hpre : ∀ c ∈ "snapshot-".data, c ≠ '/' := by decide
  have hext : ∀ c ∈ (get_archive_ext archive_format).data, c ≠ '/' := by
    cases archive_format <;> decide
  have hdi : ∀ c ∈ natToDecimal slot, c ≠ '/' :=
    fun c hc => digit_ne_slash (natToDecimal_digits c hc)
  have hha : ∀ c ∈ hash.text.data, c ≠ '/' :=
    fun c hc => alnum_ne_slash (hw.2 c hc)
  unfold build_snapshot_archive_file_name at hc
  rw [string_mk_data] at hc
  simp only [List.mem_append] at hc
  rcases hc with ((h | h) | h) | h
  · exact hpre c h
  · exact hdi c h
  · rcases List.mem_cons.mp h with h | h
    · subst h
      decide
    · exact hha c h
  · rcases List.mem_cons.mp h with h | h
    · subst h
      decide
    · exact hext c h

theorem build_incremental_snapshot_archive_file_name_no_slash
    (base_slot slot : Nat) (hash : SnapHash) (archive_format : ArchiveFormat)
    (hw : SnapHash.wf hash) :
    ∀ c ∈ (build_incremental_snapshot_archive_file_name base_slot slot hash
      archive_format).data, c ≠ '/' := by
  intro c hc
  have hpre : ∀ c ∈ "incremental-snapshot-".data, c ≠ '/' := by decide
  have hext : ∀ c ∈ (get_archive_ext archive_format).data, c ≠ '/' := by
    cases archive_format <;> decide
  have hdb : ∀ c ∈ natToDecimal base_slot, c ≠ '/' :=
    fun c hc => digit_ne_slash (natToDecimal_digits c hc)
  have hdi : ∀ c ∈ natToDecimal slot, c ≠ '/' :=
    fun c hc => digit_ne_slash (natToDecimal_digits c hc)
  have hha : ∀ c ∈ hash.text.data, c ≠ '/' :=
    fun c hc => alnum_ne_slash (hw.2 c hc)
  unfold build_incremental_snapshot_archive_file_name at hc
  rw [string_mk_data] at hc
  simp only [List.mem_append] at hc
  rcases hc with (((h | h) | h) | h) | h
  · exact hpre c h
  · exact hdb c h
  · rcases List.mem_cons.mp h with h | h
    · subst h
      decide
    · exact hdi c h
  · rcases List.mem_cons.mp h with h | h
    · subst h
      decide
    · exact hha c h
  · rcases List.mem_cons.mp h with h | h
    · subst h
      decide
    · exact hext c h

/-! ## Claim C6 -/

/-- Claim C6: full snapshot filename parsing maps a filename matching the
grammar snapshot-(slot)-(hash).(ext), with ext one of tar, tar.gz,
tar.bz2, tar.zst, to exactly its (slot, hash, format) triple, and every
filename not matching the grammar, a malformed slot, hash or extension
included, yields none (no match) rather than an error. -/
theorem claim_C6_parse_snapshot_archive_filename (s : String) :
    (∀ slot hash archive_format,
      parse_snapshot_archive_filename s = some (slot, hash, archive_format)
        ↔ snapshot_filename_matches s slot hash archive_format) ∧
    (parse_snapshot_archive_filename s = none
      ↔ ∀ slot hash archive_format,
          ¬ snapshot_filename_matches s slot hash archive_format) := by
  constructor
  · intro slot hash archive_format
    exact ⟨parse_snapshot_archive_filename_sound,
      parse_snapshot_archive_filename_complete⟩
  constructor
  · intro hnone slot hash archive_format hm
    rw [parse_snapshot_archive_filename_complete hm] at hnone
    exact Option.noConfusion hnone
  · intro hno
    cases hp : parse_snapshot_archive_filename s with
    | none => rfl
    | some x =>
      obtain ⟨slot, hash, fmt⟩ := x
      exact absurd (parse_snapshot_archive_filename_sound hp) (hno slot hash fmt)

/-! ## Claim C10 -/

/-- Claim C10: for every slot, hash and archive format (the slots are u64
values and the hash renders as a nonempty alphanumeric token), parsing the
file name of the path produced by build_snapshot_archive_path yields
exactly (slot, hash, format), and parsing the file name of the path
produced by build_incremental_snapshot_archive_path yields exactly
(base_slot, slot, hash, format). -/
theorem claim_C10_build_parse_roundtrip (snapshot_output_dir : String)
    (base_slot slot : Nat) (hash : SnapHash) (archive_format : ArchiveFormat)
    (hbase : base_slot < 2 ^ 64) (hslot : slot < 2 ^ 64)
    (hw : SnapHash.wf hash) :
    parse_snapshot_archive_filename
        (path_file_name
          (build_snapshot_archive_path snapshot_output_dir slot hash
            archive_format))
      = some (slot, hash, archive_format) ∧
    parse_incremental_snapshot_archive_filename
        (path_file_name
          (build_incremental_snapshot_archive_path snapshot_output_dir
            base_slot slot hash archive_format))
      = some (base_slot, slot, hash, archive_format) := by
  constructor
  · unfold build_snapshot_archive_path
    rw [path_file_name_append
      (build_snapshot_archive_file_name_no_slash slot hash archive_format hw)]
    exact parse_snapshot_archive_filename_complete
      ⟨natToDecimal slot, natToDecimal_ne_nil slot,
        fun c hc => natToDecimal_digits c hc, natToDecimal_val slot, hslot,
        hw, rfl⟩
  · unfold build_incremental_snapshot_archive_path
    rw [path_file_name_append
      (build_incremental_snapshot_archive_file_name_no_slash base_slot slot
        hash archive_format hw)]
    exact parse_incremental_snapshot_archive_filename_complete
      ⟨natToDecimal base_slot, natToDecimal slot,
        natToDecimal_ne_nil base_slot, fun c hc => natToDecimal_digits c hc,
        natToDecimal_val base_slot, hbase, natToDecimal_ne_nil slot,
        fun c hc => natToDecimal_digits c hc, natToDecimal_val slot, hslot,
        hw, rfl⟩

/-- Witness for claim C10 at a concrete input. -/
theorem claim_C10_build_parse_roundtrip_witness :
    (10 < 2 ^ 64 ∧ 42 < 2 ^ 64 ∧ SnapHash.wf ⟨"abc"⟩) ∧
    parse_snapshot_archive_filename
        (path_file_name
          (build_snapshot_archive_path "/snapshots" 42 ⟨"abc"⟩
            ArchiveFormat.TarBzip2))
      = some (42, ⟨"abc"⟩, ArchiveFormat.TarBzip2) ∧
    parse_incremental_snapshot_archive_filename
        (path_file_name
          (build_incremental_snapshot_archive_path "/snapshots" 10 42 ⟨"abc"⟩
            ArchiveFormat.TarBzip2))
      = some (10, 42, ⟨"abc"⟩, ArchiveFormat.TarBzip2) := by
  have h := claim_C10_build_parse_roundtrip "/snapshots" 10 42 ⟨"abc"⟩
    ArchiveFormat.TarBzip2 (by decide) (by decide) (by decide)
  exact ⟨⟨by decide, by decide, by decide⟩, h.1, h.2⟩

/-! ## Claim C4: capped deserialization -/

/-- Claim C4: capped deserialization fails, before the file is opened or
read (for every deserializer alike), when the file size exceeds the cap;
when the deserializer returns, it fails exactly when the bytes consumed
differ from the file size (shorter and longer alike, via the dedicated
check as well) and otherwise returns the deserializer's value. -/
theorem claim_C4_deserialize_snapshot_data_file_capped {T : Type}
    (data_file_path : String) (file_size maximum_file_size : Nat) (ret : T)
    (consumed_size : Nat) :
    (file_size > maximum_file_size →
      ∀ deserializer : Except SnapshotError (T × Nat),
        deserialize_snapshot_data_file_capped data_file_path file_size
            maximum_file_size deserializer
          = Except.error (get_io_error
            ("too large snapshot data file to deserialize: " ++ data_file_path ++
              " has " ++ toString file_size ++ " bytes"))) ∧
    (file_size ≤ maximum_file_size →
      (deserialize_snapshot_data_file_capped data_file_path file_size
          maximum_file_size (Except.ok (ret, consumed_size))
        = Except.ok ret ↔ consumed_size = file_size)) ∧
    (file_size ≤ maximum_file_size → consumed_size ≠ file_size →
      deserialize_snapshot_data_file_capped data_file_path file_size
          maximum_file_size (Except.ok (ret, consumed_size))
        = Except.error (get_io_error
          ("invalid snapshot data file: " ++ data_file_path ++ " has " ++
            toString file_size ++ " bytes, however consumed " ++
            toString consumed_size ++ " bytes to deserialize"))) ∧
    (check_deserialize_snapshot_data_file file_size data_file_path
        consumed_size = Except.ok () ↔ consumed_size = file_size) := by
  refine ⟨?_, ?_, ?_, ?_⟩
  · intro hgt deserializer
    unfold deserialize_snapshot_data_file_capped
    rw [if_pos hgt]
  · intro hle
    unfold deserialize_snapshot_data_file_capped
    rw [if_neg (Nat.not_lt.mpr hle)]
    dsimp only
    by_cases hc : file_size = consumed_size
    · rw [if_neg (fun hne => hne hc)]
      exact ⟨fun _ => hc.symm, fun _ => rfl⟩
    · rw [if_pos hc]
      exact ⟨fun hcontra => Except.noConfusion hcontra,
        fun hce => absurd hce.symm hc⟩
  · intro hle hne
    unfold deserialize_snapshot_data_file_capped
    rw [if_neg (Nat.not_lt.mpr hle)]
    dsimp only
    rw [if_pos (fun hc => hne hc.symm)]
  · unfold check_deserialize_snapshot_data_file
    by_cases hc : consumed_size = file_size
    · rw [if_neg (fun hne => hne hc)]
      exact ⟨fun _ => hc, fun _ => rfl⟩
    · rw [if_pos hc]
      exact ⟨fun hcontra => Except.noConfusion hcontra,
        fun hce => absurd hce hc⟩

/-- Witness for claim C4 at concrete inputs. -/
theorem claim_C4_deserialize_snapshot_data_file_capped_witness :
    deserialize_snapshot_data_file_capped "data-file" 4 8
        (Except.ok ((2323 : Nat), 4)) = Except.ok 2323 ∧
    (9 > 8 ∧ deserialize_snapshot_data_file_capped "data-file" 9 8
        (Except.ok ((2323 : Nat), 9))
      = Except.error (get_io_error
        "too large snapshot data file to deserialize: data-file has 9 bytes")) := by
  have h4 := claim_C4_deserialize_snapshot_data_file_capped "data-file" 4 8
    (2323 : Nat) 4
  have h9 := claim_C4_deserialize_snapshot_data_file_capped "data-file" 9 8
    (2323 : Nat) 9
  exact ⟨(h4.2.1 (by decide)).mpr rfl, by decide,
    h9.1 (by decide) (Except.ok ((2323 : Nat), 9))⟩

/-! ## Claim C9: capped serialization -/

/-- Claim C9: for an otherwise successful serializer, capped serialization
returns the size-limit error exactly when the bytes written exceed the
cap, and otherwise returns exactly the bytes written; the default entry
point is capped at 32 GiB and writing exactly cap-many bytes succeeds. -/
theorem claim_C9_serialize_snapshot_data_file_capped (data_file_path : String)
    (maximum_file_size bytes_written : Nat) :
    (serialize_snapshot_data_file_capped data_file_path maximum_file_size
        (Except.ok ()) bytes_written
      = Except.error (get_io_error
        ("too large snapshot data file to serialize: " ++ data_file_path ++
          " has " ++ toString bytes_written ++ " bytes"))
      ↔ bytes_written > maximum_file_size) ∧
    (bytes_written ≤ maximum_file_size →
      serialize_snapshot_data_file_capped data_file_path maximum_file_size
          (Except.ok ()) bytes_written
        = Except.ok bytes_written) ∧
    (MAX_SNAPSHOT_DATA_FILE_SIZE = 32 * 1024 * 1024 * 1024 ∧
      serialize_snapshot_data_file data_file_path (Except.ok ())
          MAX_SNAPSHOT_DATA_FILE_SIZE
        = Except.ok MAX_SNAPSHOT_DATA_FILE_SIZE) := by
  refine ⟨?_, ?_, rfl, ?_⟩
  · unfold serialize_snapshot_data_file_capped
    by_cases hgt : bytes_written > maximum_file_size
    · rw [if_pos hgt]
      exact ⟨fun _ => hgt, fun _ => rfl⟩
    · rw [if_neg hgt]
      exact ⟨fun hcontra => Except.noConfusion hcontra,
        fun hc => absurd hc hgt⟩
  · intro hle
    unfold serialize_snapshot_data_file_capped
    rw [if_neg (Nat.not_lt.mpr hle)]
  · unfold serialize_snapshot_data_file serialize_snapshot_data_file_capped
    rw [if_neg (Nat.lt_irrefl MAX_SNAPSHOT_DATA_FILE_SIZE)]

/-- Witness for claim C9 at a concrete input. -/
theorem claim_C9_serialize_snapshot_data_file_capped_witness :
    serialize_snapshot_data_file_capped "data-file" 4 (Except.ok ()) 4
      = Except.ok 4 := by
  exact (claim_C9_serialize_snapshot_data_file_capped "data-file" 4 4).2.1
    (by decide)

/-! ## Claim C5: snapshot compatibility -/

/-- Claim C5: when both archive file names parse, the compatibility check
fails with IncompatibleSnapshots(full slot, incremental base slot) exactly
when the incremental archive's base slot differs from the full archive's
slot, and returns the pair (full slot, incremental slot) when they are
equal. -/
theorem claim_C5_check_are_snapshots_compatible
    (full_snapshot_archive_path incremental_snapshot_archive_path : String)
    (full_slot inc_base inc_slot : Nat) (hash1 hash2 : SnapHash)
    (fmt1 fmt2 : ArchiveFormat)
    (hfull : parse_snapshot_archive_filename
      (path_file_name full_snapshot_archive_path)
        = some (full_slot, hash1, fmt1))
    (hinc : parse_incremental_snapshot_archive_filename
      (path_file_name incremental_snapshot_archive_path)
        = some (inc_base, inc_slot, hash2, fmt2)) :
    (check_are_snapshots_compatible full_snapshot_archive_path
        incremental_snapshot_archive_path
      = Except.error (SnapshotError.incompatibleSnapshots full_slot inc_base)
      ↔ inc_base ≠ full_slot) ∧
    (inc_base = full_slot →
      check_are_snapshots_compatible full_snapshot_archive_path
          incremental_snapshot_archive_path
        = Except.ok (full_slot, inc_slot)) := by
  unfold check_are_snapshots_compatible
  simp only [hfull, hinc]
  by_cases he : full_slot = inc_base
  · rw [if_pos he]
    constructor
    · exact ⟨fun hcontra => Except.noConfusion hcontra,
        fun hne => absurd he.symm hne⟩
    · intro _
      rfl
  · rw [if_neg he]
    constructor
    · exact ⟨fun _ => fun hc => he hc.symm, fun _ => rfl⟩
    · intro heq
      exact absurd heq.symm he

/-- Witness for claim C5 at concrete inputs: a full archive at slot 10
paired with an incremental archive whose base slot is 20 fails with
IncompatibleSnapshots(10, 20). -/
theorem claim_C5_check_are_snapshots_compatible_witness :
    check_are_snapshots_compatible "/dir/snapshot-10-abc.tar"
        "/dir/incremental-snapshot-20-30-abc.tar"
      = Except.error (SnapshotError.incompatibleSnapshots 10 20) := by
  exact ((claim_C5_check_are_snapshots_compatible "/dir/snapshot-10-abc.tar"
    "/dir/incremental-snapshot-20-30-abc.tar" 10 20 30 ⟨"abc"⟩ ⟨"abc"⟩
    ArchiveFormat.Tar ArchiveFormat.Tar (by decide) (by decide)).1).mpr
    (by decide)

/-! ## Claim C8: the incremental packaging assertion -/

/-- Claim C8: incremental snapshot packaging aborts the process through the
failed assertion (a distinct outcome from any returned error) exactly when
some storage entry's slot is at most the incremental base slot, and
proceeds exactly when every storage entry's slot strictly exceeds the base
slot. -/
theorem claim_C8_package_incremental_snapshot
    (incremental_snapshot_base_slot : Nat)
    (snapshot_storages : List (List Nat)) :
    (package_incremental_snapshot incremental_snapshot_base_slot
        snapshot_storages = PackageStep.assertAbort incrementalAssertMsg
      ↔ ∃ storage ∈ snapshot_storages, ∃ entry_slot ∈ storage,
          entry_slot ≤ incremental_snapshot_base_slot) ∧
    (package_incremental_snapshot incremental_snapshot_base_slot
        snapshot_storages = PackageStep.proceed
      ↔ ∀ storage ∈ snapshot_storages, ∀ entry_slot ∈ storage,
          incremental_snapshot_base_slot < entry_slot) := by
  have hiff : (snapshot_storages.all
      (fun storage => storage.all
        (fun entry_slot => incremental_snapshot_base_slot < entry_slot)) = true)
      ↔ ∀ storage ∈ snapshot_storages, ∀ entry_slot ∈ storage,
          incremental_snapshot_base_slot < entry_slot := by
    simp [List.all_eq_true]
  unfold package_incremental_snapshot
  by_cases hall : ∀ storage ∈ snapshot_storages, ∀ entry_slot ∈ storage,
      incremental_snapshot_base_slot < entry_slot
  · rw [if_pos (hiff.mpr hall)]
    constructor
    · constructor
      · intro hcontra
        exact PackageStep.noConfusion hcontra
      · intro hex
        obtain ⟨storage, hst, entry_slot, hes, hle⟩ := hex
        exact absurd (hall storage hst entry_slot hes) (Nat.not_lt.mpr hle)
    · exact ⟨fun _ => hall, fun _ => rfl⟩
  · rw [if_neg (fun hc => hall (hiff.mp hc))]
    have hex : ∃ storage ∈ snapshot_storages, ∃ entry_slot ∈ storage,
        entry_slot ≤ incremental_snapshot_base_slot := by
      push_neg at hall
      exact hall
    constructor
    · exact ⟨fun _ => hex, fun _ => rfl⟩
    · constructor
      · intro hcontra
        exact PackageStep.noConfusion hcontra
      · intro hforall
        exact absurd hforall hall

/-! ## Claim C7: purge runs only after the atomic rename -/

theorem archive_snapshot_package_cases (env : ArchiveEnv) :
    (∃ e, archive_snapshot_package env = ([], Except.error e)) ∨
    (∃ e, archive_snapshot_package env
      = ([ArchiveEvent.createTempArchive], Except.error e)) ∨
    archive_snapshot_package env
      = ([ArchiveEvent.createTempArchive, ArchiveEvent.renamePublic,
          ArchiveEvent.purgeInvoked], Except.ok ()) := by
  unfold archive_snapshot_package
  rcases env with ⟨f1, f2, f3, f4, st, f5, f6, b1, f7, f8, b2, f9, f10⟩
  dsimp only
  cases f1 with
  | some e => exact Or.inl ⟨e, rfl⟩
  | none =>
  cases f2 with
  | some e => exact Or.inl ⟨e, rfl⟩
  | none =>
  cases f3 with
  | some e => exact Or.inl ⟨e, rfl⟩
  | none =>
  cases f4 with
  | some e => exact Or.inl ⟨e, rfl⟩
  | none =>
  cases hst : firstStorageError st with
  | some e => exact Or.inl ⟨e, rfl⟩
  | none =>
  cases f5 with
  | some e => exact Or.inl ⟨e, rfl⟩
  | none =>
  cases f6 with
  | some e => exact Or.inl ⟨e, rfl⟩
  | none =>
  cases b1 with
  | false => exact Or.inl ⟨SnapshotError.ioError "tar stdout unavailable", rfl⟩
  | true =>
  cases f7 with
  | some e => exact Or.inr (Or.inl ⟨e, rfl⟩)
  | none =>
  cases f8 with
  | some e => exact Or.inr (Or.inl ⟨e, rfl⟩)
  | none =>
  cases b2 with
  | false =>
    exact Or.inr (Or.inl ⟨SnapshotError.archiveGenerationFailure, rfl⟩)
  | true =>
  cases f9 with
  | some e => exact Or.inr (Or.inl ⟨e, rfl⟩)
  | none =>
  cases f10 with
  | some e => exact Or.inr (Or.inl ⟨e, rfl⟩)
  | none => exact Or.inr (Or.inr rfl)

/-- Claim C7: in every run of archive_snapshot_package, the purge is
invoked only on the one trace where the temp archive was atomically
renamed to its public filename first (the rename strictly precedes the
purge); on every error path the purge is not invoked and no rename to the
public filename has happened, so no file with the public name was
created. -/
theorem claim_C7_archive_purge_after_rename (env : ArchiveEnv) :
    (ArchiveEvent.purgeInvoked ∈ (archive_snapshot_package env).1 →
      (archive_snapshot_package env).1
        = [ArchiveEvent.createTempArchive, ArchiveEvent.renamePublic,
            ArchiveEvent.purgeInvoked]) ∧
    (∀ e, (archive_snapshot_package env).2 = Except.error e →
      ArchiveEvent.renamePublic ∉ (archive_snapshot_package env).1 ∧
      ArchiveEvent.purgeInvoked ∉ (archive_snapshot_package env).1) := by
  rcases archive_snapshot_package_cases env with ⟨e, he⟩ | ⟨e, he⟩ | he <;>
    rw [he] <;>
    constructor
  · intro hmem
    cases hmem
  · intro e2 _
    exact ⟨by simp, by simp⟩
  · intro hmem
    simp at hmem
  · intro e2 _
    exact ⟨by simp, by simp⟩
  · intro _
    rfl
  · intro e2 hcontra
    exact Except.noConfusion hcontra

/-! ## Archive discovery lemmas -/

theorem not_contains_iff {l : List String} {n : String} :
    (!(l.contains n)) = true ↔ n ∉ l := by
  simp

theorem mem_get_snapshot_archives {dir : List String} {a : SnapshotArchiveInfo} :
    a ∈ get_snapshot_archives dir ↔
      a.path ∈ dir ∧ parse_snapshot_archive_filename a.path
        = some (a.slot, a.hash, a.archive_format) := by
  unfold get_snapshot_archives
  rw [List.mem_filterMap]
  constructor
  · rintro ⟨name, hmem, hf⟩
    cases hparse : parse_snapshot_archive_filename name with
    | none =>
      rw [hparse] at hf
      exact Option.noConfusion hf
    | some x =>
      obtain ⟨s, hsh, f⟩ := x
      rw [hparse] at hf
      simp only [Option.map_some'] at hf
      obtain rfl := Option.some.inj hf
      exact ⟨hmem, hparse⟩
  · rintro ⟨hmem, hparse⟩
    refine ⟨a.path, hmem, ?_⟩
    rw [hparse]
    rfl

theorem mem_get_incremental_snapshot_archives {dir : List String}
    {a : IncrementalSnapshotArchiveInfo} :
    a ∈ get_incremental_snapshot_archives dir ↔
      a.path ∈ dir ∧ parse_incremental_snapshot_archive_filename a.path
        = some (a.base_slot, a.slot, a.hash, a.archive_format) := by
  unfold get_incremental_snapshot_archives
  rw [List.mem_filterMap]
  constructor
  · rintro ⟨name, hmem, hf⟩
    cases hparse : parse_incremental_snapshot_archive_filename name with
    | none =>
      rw [hparse] at hf
      exact Option.noConfusion hf
    | some x =>
      obtain ⟨b, s, hsh, f⟩ := x
      rw [hparse] at hf
      simp only [Option.map_some'] at hf
      obtain rfl := Option.some.inj hf
      exact ⟨hmem, hparse⟩
  · rintro ⟨hmem, hparse⟩
    refine ⟨a.path, hmem, ?_⟩
    rw [hparse]
    rfl

theorem get_snapshot_archives_filter (dir : List String) (p : String → Bool) :
    get_snapshot_archives (dir.filter p)
      = (get_snapshot_archives dir).filter (fun a => p a.path) := by
  unfold get_snapshot_archives
  induction dir with
  | nil => rfl
  | cons name rest ih =>
    cases hparse : parse_snapshot_archive_filename name with
    | none =>
      by_cases hp : p name = true
      · simp [List.filter_cons, List.filterMap_cons, hparse, hp, ih]
      · simp [List.filter_cons, List.filterMap_cons, hparse, hp, ih]
    | some x =>
      by_cases hp : p name = true
      · simp [List.filter_cons, List.filterMap_cons, hparse, hp, ih]
      · simp [List.filter_cons, List.filterMap_cons, hparse, hp, ih]

theorem archives_path_eq {dir : List String} {a b : SnapshotArchiveInfo}
    (ha : a ∈ get_snapshot_archives dir) (hb : b ∈ get_snapshot_archives dir)
    (hpath : a.path = b.path) : a = b := by
  obtain ⟨_, hpa⟩ := mem_get_snapshot_archives.mp ha
  obtain ⟨_, hpb⟩ := mem_get_snapshot_archives.mp hb
  rw [hpath] at hpa
  have heq := Option.some.inj (hpa.symm.trans hpb)
  simp only [Prod.mk.injEq] at heq
  obtain ⟨h1, h2, h3⟩ := heq
  cases a
  cases b
  simp_all

theorem incremental_archives_path_eq {dir : List String}
    {a b : IncrementalSnapshotArchiveInfo}
    (ha : a ∈ get_incremental_snapshot_archives dir)
    (hb : b ∈ get_incremental_snapshot_archives dir)
    (hpath : a.path = b.path) : a = b := by
  obtain ⟨_, hpa⟩ := mem_get_incremental_snapshot_archives.mp ha
  obtain ⟨_, hpb⟩ := mem_get_incremental_snapshot_archives.mp hb
  rw [hpath] at hpa
  have heq := Option.some.inj (hpa.symm.trans hpb)
  simp only [Prod.mk.injEq] at heq
  obtain ⟨h1, h2, h3, h4⟩ := heq
  cases a
  cases b
  simp_all

theorem archives_pairwise_path_ne {dir : List String} (hnd : dir.Nodup) :
    (get_snapshot_archives dir).Pairwise (fun a b => a.path ≠ b.path) := by
  induction dir with
  | nil => exact List.Pairwise.nil
  | cons name rest ih =>
    obtain ⟨hnmem, hndrest⟩ := List.nodup_cons.mp hnd
    show ((name :: rest).filterMap _).Pairwise _
    rw [List.filterMap_cons]
    cases hparse : parse_snapshot_archive_filename name with
    | none => exact ih hndrest
    | some x =>
      refine List.Pairwise.cons ?_ (ih hndrest)
      intro b hb he
      have hbp : b.path ∈ rest := (mem_get_snapshot_archives.mp hb).1
      rw [← he] at hbp
      exact hnmem hbp

/-! ## Sorting and highest-slot lemmas -/

theorem get_sorted_snapshot_archives_perm (dir : List String) :
    List.Perm (get_sorted_snapshot_archives dir) (get_snapshot_archives dir) :=
  List.perm_insertionSort _ _

theorem get_sorted_snapshot_archives_sorted (dir : List String) :
    (get_sorted_snapshot_archives dir).Sorted (fun a b => b.slot ≤ a.slot) := by
  haveI : IsTotal SnapshotArchiveInfo (fun a b => b.slot ≤ a.slot) :=
    ⟨fun a b => Nat.le_total b.slot a.slot⟩
  haveI : IsTrans SnapshotArchiveInfo (fun a b => b.slot ≤ a.slot) :=
    ⟨fun a b c hab hbc => Nat.le_trans hbc hab⟩
  exact List.sorted_insertionSort _ _

theorem sorted_head_max {dir : List String} {a0 : SnapshotArchiveInfo}
    {tail : List SnapshotArchiveInfo}
    (hA : get_sorted_snapshot_archives dir = a0 :: tail) :
    ∀ b ∈ get_snapshot_archives dir, b.slot ≤ a0.slot := by
  intro b hb
  have hbA : b ∈ a0 :: tail := by
    rw [← hA]
    exact ((get_sorted_snapshot_archives_perm dir).mem_iff).mpr hb
  rcases List.mem_cons.mp hbA with rfl | hbt
  · exact Nat.le_refl _
  · have hs := get_sorted_snapshot_archives_sorted dir
    rw [hA] at hs
    exact List.rel_of_sorted_cons hs b hbt

theorem get_highest_eq_some {dir : List String} {a0 : SnapshotArchiveInfo}
    {tail : List SnapshotArchiveInfo}
    (hA : get_sorted_snapshot_archives dir = a0 :: tail) :
    get_highest_snapshot_archive_slot dir = some a0.slot := by
  unfold get_highest_snapshot_archive_slot get_highest_snapshot_archive_info
  rw [hA]
  rfl

theorem get_highest_none {dir : List String}
    (h : get_snapshot_archives dir = []) :
    get_highest_snapshot_archive_slot dir = none := by
  have hs : get_sorted_snapshot_archives dir = [] := by
    have hp := get_sorted_snapshot_archives_perm dir
    rw [h] at hp
    exact hp.eq_nil
  unfold get_highest_snapshot_archive_slot get_highest_snapshot_archive_info
  rw [hs]
  rfl

theorem get_highest_eq_of_max {dir : List String} {s : Nat}
    (hex : ∃ a ∈ get_snapshot_archives dir, a.slot = s)
    (hmax : ∀ b ∈ get_snapshot_archives dir, b.slot ≤ s) :
    get_highest_snapshot_archive_slot dir = some s := by
  cases hA : get_sorted_snapshot_archives dir with
  | nil =>
    obtain ⟨a, ha, _⟩ := hex
    have hmem : a ∈ get_sorted_snapshot_archives dir :=
      ((get_sorted_snapshot_archives_perm dir).mem_iff).mpr ha
    rw [hA] at hmem
    cases hmem
  | cons a0 tail =>
    rw [get_highest_eq_some hA]
    have ha0mem : a0 ∈ get_snapshot_archives dir := by
      have : a0 ∈ get_sorted_snapshot_archives dir := by
        rw [hA]
        exact List.mem_cons_self a0 tail
      exact ((get_sorted_snapshot_archives_perm dir).mem_iff).mp this
    obtain ⟨a, ha, has⟩ := hex
    have h1 : a0.slot ≤ s := hmax a0 ha0mem
    have h2 : s ≤ a0.slot := by
      rw [← has]
      exact sorted_head_max hA a ha
    rw [Nat.le_antisymm h1 h2]

/-! ## Purge membership lemmas -/

theorem mem_purge_old_snapshot_archives {dir : List String} {m : Nat}
    {n : String} :
    n ∈ purge_old_snapshot_archives dir m ↔
      n ∈ dir ∧ n ∉ purged_full_paths dir m
        ∧ n ∉ purged_incremental_paths dir m := by
  unfold purge_old_snapshot_archives dir_after_full_purge
  rw [List.mem_filter, List.mem_filter, not_contains_iff, not_contains_iff,
    and_assoc]

theorem mem_dir_after_full_purge {dir : List String} {m : Nat} {n : String} :
    n ∈ dir_after_full_purge dir m ↔ n ∈ dir ∧ n ∉ purged_full_paths dir m := by
  unfold dir_after_full_purge
  rw [List.mem_filter, not_contains_iff]

theorem incremental_not_in_purged_full {dir : List String} {m : Nat}
    {n : String} {x : Nat × Nat × SnapHash × ArchiveFormat}
    (h : parse_incremental_snapshot_archive_filename n = some x) :
    n ∉ purged_full_paths dir m := by
  intro hmem
  unfold purged_full_paths at hmem
  obtain ⟨c, hc, hcp⟩ := List.mem_map.mp hmem
  have hcA : c ∈ get_snapshot_archives dir := by
    have h1 : c ∈ (get_sorted_snapshot_archives dir).dropLast :=
      (List.drop_sublist _ _).subset hc
    have h2 : c ∈ get_sorted_snapshot_archives dir :=
      (List.dropLast_sublist _).subset h1
    exact ((get_sorted_snapshot_archives_perm dir).mem_iff).mp h2
  obtain ⟨_, hparse⟩ := mem_get_snapshot_archives.mp hcA
  rw [hcp, parse_full_of_incremental h] at hparse
  exact Option.noConfusion hparse

theorem full_not_in_purged_incremental {dir : List String} {m : Nat}
    {n : String} {x : Nat × SnapHash × ArchiveFormat}
    (h : parse_snapshot_archive_filename n = some x) :
    n ∉ purged_incremental_paths dir m := by
  intro hmem
  unfold purged_incremental_paths at hmem
  obtain ⟨c, hc, hcp⟩ := List.mem_map.mp hmem
  have hcmem := (List.mem_filter.mp hc).1
  obtain ⟨_, hparse⟩ := mem_get_incremental_snapshot_archives.mp hcmem
  rw [hcp, parse_incremental_of_full h] at hparse
  exact Option.noConfusion hparse

theorem highest_after_full_purge (dir : List String) (m : Nat)
    (hnd : dir.Nodup) :
    get_highest_snapshot_archive_slot (dir_after_full_purge dir m)
      = get_highest_snapshot_archive_slot dir := by
  cases hA : get_sorted_snapshot_archives dir with
  | nil =>
    have harch : get_snapshot_archives dir = [] := by
      have hp := (get_sorted_snapshot_archives_perm dir).symm
      rw [hA] at hp
      exact hp.eq_nil
    have harch1 : get_snapshot_archives (dir_after_full_purge dir m) = [] := by
      unfold dir_after_full_purge
      rw [get_snapshot_archives_filter, harch]
      rfl
    rw [get_highest_none harch1, get_highest_none harch]
  | cons a0 tail =>
    have ha0sorted : a0 ∈ get_sorted_snapshot_archives dir := by
      rw [hA]
      exact List.mem_cons_self a0 tail
    have ha0mem : a0 ∈ get_snapshot_archives dir :=
      ((get_sorted_snapshot_archives_perm dir).mem_iff).mp ha0sorted
    have hApair : (get_sorted_snapshot_archives dir).Pairwise
        (fun a b => a.path ≠ b.path) :=
      ((get_sorted_snapshot_archives_perm dir).pairwise_iff
        (fun ha hb => ha hb.symm)).mpr (archives_pairwise_path_ne hnd)
    have ha0np : a0.path ∉ purged_full_paths dir m := by
      intro hmem
      unfold purged_full_paths at hmem
      obtain ⟨c, hc, hcp⟩ := List.mem_map.mp hmem
      have hctail : c ∈ tail := by
        rw [hA] at hc
        obtain ⟨k, hk⟩ : ∃ k, max 1 m = k + 1 := by
          cases hmk : max 1 m with
          | zero =>
            have := Nat.le_max_left 1 m
            omega
          | succ k => exact ⟨k, rfl⟩
        rw [hk] at hc
        cases tail with
        | nil => cases hc
        | cons t ts =>
          have hdl : ((a0 :: t :: ts).dropLast) = a0 :: (t :: ts).dropLast := rfl
          rw [hdl, List.drop_succ_cons] at hc
          have h1 : c ∈ (t :: ts).dropLast := (List.drop_sublist _ _).subset hc
          exact (List.dropLast_sublist _).subset h1
      rw [hA] at hApair
      exact List.rel_of_pairwise_cons hApair hctail hcp.symm
    have ha0mem1 : a0 ∈ get_snapshot_archives (dir_after_full_purge dir m) := by
      unfold dir_after_full_purge
      rw [get_snapshot_archives_filter, List.mem_filter]
      exact ⟨ha0mem, not_contains_iff.mpr ha0np⟩
    have hmax1 : ∀ b ∈ get_snapshot_archives (dir_after_full_purge dir m),
        b.slot ≤ a0.slot := by
      intro b hb
      have hbmem : b ∈ get_snapshot_archives dir := by
        unfold dir_after_full_purge at hb
        rw [get_snapshot_archives_filter, List.mem_filter] at hb
        exact hb.1
      exact sorted_head_max hA b hbmem
    rw [get_highest_eq_some hA,
      get_highest_eq_of_max ⟨a0, ha0mem1, rfl⟩ hmax1]

theorem mem_purged_full_paths {dir : List String} {m : Nat} {n : String} :
    n ∈ purged_full_paths dir m ↔
      ∃ j : Nat, ∃ hj : j < (get_sorted_snapshot_archives dir).length,
        max 1 m ≤ j ∧ j < (get_sorted_snapshot_archives dir).length - 1 ∧
        ((get_sorted_snapshot_archives dir).get ⟨j, hj⟩).path = n := by
  unfold purged_full_paths
  rw [List.mem_map]
  constructor
  · rintro ⟨c, hc, hcp⟩
    obtain ⟨jj, hjj, hcgot⟩ := List.mem_iff_getElem.mp hc
    have hlen : ((get_sorted_snapshot_archives dir).dropLast.drop
        (max 1 m)).length
        = (get_sorted_snapshot_archives dir).length - 1 - max 1 m := by
      simp
    rw [hlen] at hjj
    refine ⟨max 1 m + jj, by omega, by omega, by omega, ?_⟩
    rw [List.get_eq_getElem, ← hcp, ← hcgot, List.getElem_drop,
      List.getElem_dropLast]
  · rintro ⟨j, hj, hKj, hjlt, hjp⟩
    rw [List.get_eq_getElem] at hjp
    refine ⟨(get_sorted_snapshot_archives dir)[j], ?_, hjp⟩
    apply List.mem_iff_getElem.mpr
    have hlen : ((get_sorted_snapshot_archives dir).dropLast.drop
        (max 1 m)).length
        = (get_sorted_snapshot_archives dir).length - 1 - max 1 m := by
      simp
    refine ⟨j - max 1 m, by omega, ?_⟩
    rw [List.getElem_drop, List.getElem_dropLast]
    simp [show max 1 m + (j - max 1 m) = j from by omega]

/-! ## Claim C3: full snapshot retention -/

/-- Claim C3: over any directory whose full snapshot archives carry
pairwise distinct slots, purging keeps the single oldest full archive (the
last of the descending sort) unconditionally, and an archive at position i
of the remaining descending order (every position before the last) is
retained exactly when i < max 1 max_to_retain; in particular with full
archives at slots 1, 3 and 50, max_to_retain = 1 leaves exactly slots 1
and 50, max_to_retain = 0 behaves identically, and max_to_retain = 2
leaves all three. -/
theorem claim_C3_purge_old_snapshot_archives (dir : List String) (m : Nat)
    (hdist : (get_snapshot_archives dir).Pairwise
      (fun a b => a.slot ≠ b.slot)) :
    (∀ hA : get_sorted_snapshot_archives dir ≠ [],
      ((get_sorted_snapshot_archives dir).getLast hA).path
        ∈ purge_old_snapshot_archives dir m) ∧
    (∀ (i : Nat) (hi : i < (get_sorted_snapshot_archives dir).length - 1),
      (((get_sorted_snapshot_archives dir).get ⟨i, by omega⟩).path
          ∈ purge_old_snapshot_archives dir m ↔ i < max 1 m)) ∧
    (purge_old_snapshot_archives
        ["snapshot-1-A.tar.zst", "snapshot-3-A.tar.zst",
          "snapshot-50-A.tar.zst"] 1
      = ["snapshot-1-A.tar.zst", "snapshot-50-A.tar.zst"] ∧
    purge_old_snapshot_archives
        ["snapshot-1-A.tar.zst", "snapshot-3-A.tar.zst",
          "snapshot-50-A.tar.zst"] 0
      = ["snapshot-1-A.tar.zst", "snapshot-50-A.tar.zst"] ∧
    purge_old_snapshot_archives
        ["snapshot-1-A.tar.zst", "snapshot-3-A.tar.zst",
          "snapshot-50-A.tar.zst"] 2
      = ["snapshot-1-A.tar.zst", "snapshot-3-A.tar.zst",
          "snapshot-50-A.tar.zst"]) := by
  have hApair : (get_sorted_snapshot_archives dir).Pairwise
      (fun a b => a.slot ≠ b.slot) :=
    ((get_sorted_snapshot_archives_perm dir).pairwise_iff
      (fun ha hb => ha hb.symm)).mpr hdist
  have hsorted := get_sorted_snapshot_archives_sorted dir
  have hstrict : (get_sorted_snapshot_archives dir).Pairwise
      (fun a b => b.slot < a.slot) :=
    (List.Pairwise.and hsorted hApair).imp
      (fun h => Nat.lt_of_le_of_ne h.1 (fun he => h.2 he.symm))
  have hposne := List.pairwise_iff_getElem.mp hstrict
  have hretained : ∀ (i : Nat) (hi : i < (get_sorted_snapshot_archives dir).length),
      (∀ j, max 1 m ≤ j → j < (get_sorted_snapshot_archives dir).length - 1 →
        j ≠ i) →
      ((get_sorted_snapshot_archives dir)[i]).path
        ∈ purge_old_snapshot_archives dir m := by
    intro i hi hcond
    have hamem : (get_sorted_snapshot_archives dir)[i]
        ∈ get_snapshot_archives dir :=
      ((get_sorted_snapshot_archives_perm dir).mem_iff).mp (List.getElem_mem hi)
    obtain ⟨hpath, hparse⟩ := mem_get_snapshot_archives.mp hamem
    rw [mem_purge_old_snapshot_archives]
    refine ⟨hpath, ?_, full_not_in_purged_incremental hparse⟩
    intro hin
    obtain ⟨j, hj, hKj, hjlt, hjp⟩ := mem_purged_full_paths.mp hin
    rw [List.get_eq_getElem] at hjp
    have hjmem : (get_sorted_snapshot_archives dir)[j]
        ∈ get_snapshot_archives dir :=
      ((get_sorted_snapshot_archives_perm dir).mem_iff).mp (List.getElem_mem hj)
    have heq := archives_path_eq hjmem hamem hjp
    have hne : j ≠ i := hcond j hKj hjlt
    rcases Nat.lt_or_ge j i with hlt | hge
    · have hslt := hposne j i hj hi hlt
      rw [heq] at hslt
      exact absurd hslt (Nat.lt_irrefl _)
    · have hlt2 : i < j := by omega
      have hslt := hposne i j hi hj hlt2
      rw [heq] at hslt
      exact absurd hslt (Nat.lt_irrefl _)
  refine ⟨?_, ?_, by decide, by decide, by decide⟩
  · intro hA
    have hlenpos : 0 < (get_sorted_snapshot_archives dir).length := by
      cases hAe : get_sorted_snapshot_archives dir with
      | nil => exact absurd hAe hA
      | cons a t => simp [hAe]
    rw [List.getLast_eq_getElem]
    exact hretained ((get_sorted_snapshot_archives dir).length - 1) (by omega)
      (fun j hKj hjlt => by omega)
  · intro i hi
    rw [List.get_eq_getElem]
    constructor
    · intro hmem
      by_contra hKi
      have hKile : max 1 m ≤ i := by omega
      have hin : ((get_sorted_snapshot_archives dir)[i]).path
          ∈ purged_full_paths dir m := by
        apply mem_purged_full_paths.mpr
        refine ⟨i, by omega, hKile, hi, ?_⟩
        rw [List.get_eq_getElem]
      exact (mem_purge_old_snapshot_archives.mp hmem).2.1 hin
    · intro hiK
      exact hretained i (by omega) (fun j hKj hjlt => by omega)

/-- Witness for claim C3 at the concrete directory of the claim. -/
theorem claim_C3_purge_old_snapshot_archives_witness :
    purge_old_snapshot_archives
        ["snapshot-1-A.tar.zst", "snapshot-3-A.tar.zst",
          "snapshot-50-A.tar.zst"] 1
      = ["snapshot-1-A.tar.zst", "snapshot-50-A.tar.zst"] :=
  (claim_C3_purge_old_snapshot_archives
    ["snapshot-1-A.tar.zst", "snapshot-3-A.tar.zst", "snapshot-50-A.tar.zst"]
    1 (by decide)).2.2.1

/-! ## Claim C2: incremental snapshot retention -/

/-- Counterexample to claim C2 as stated: in a directory holding a full
archive at slot 100 and an incremental archive with base slot 200, the
newest full archive's slot after purging is 100 and the incremental's base
slot 200 differs from it, yet the incremental archive survives the purge
(the source deletes only incrementals whose base slot is strictly below
the newest full slot). -/
theorem claim_C2_counterexample :
    "incremental-snapshot-200-220-A.tar"
        ∈ purge_old_snapshot_archives
          ["snapshot-100-A.tar", "incremental-snapshot-200-220-A.tar"] 1 ∧
    get_highest_snapshot_archive_slot
        (purge_old_snapshot_archives
          ["snapshot-100-A.tar", "incremental-snapshot-200-220-A.tar"] 1)
      = some 100 ∧
    parse_incremental_snapshot_archive_filename
        "incremental-snapshot-200-220-A.tar"
      = some (200, 220, ⟨"A"⟩, ArchiveFormat.Tar) ∧
    (200 : Nat) ≠ 100 := by
  refine ⟨by decide, by decide, by decide, by decide⟩

/-- Claim C2, amended: after purge_old_snapshot_archives runs on a
duplicate-free directory, an incremental snapshot archive of the directory
remains exactly when its base slot does not compare below the newest full
archive's slot under the source's Option ordering: incrementals with base
slot less than the newest full slot are deleted, those with base slot
equal to (or greater than) the newest full slot remain, and with no full
archive present nothing is deleted. -/
theorem claim_C2_purge_incremental_retention (dir : List String) (m : Nat)
    (hnd : dir.Nodup) (a : IncrementalSnapshotArchiveInfo)
    (ha : a ∈ get_incremental_snapshot_archives dir) :
    a.path ∈ purge_old_snapshot_archives dir m ↔
      optionSlotLt (some a.base_slot)
        (get_highest_snapshot_archive_slot dir) = false := by
  obtain ⟨hpath, hparse⟩ := mem_get_incremental_snapshot_archives.mp ha
  have hnotfull : a.path ∉ purged_full_paths dir m :=
    incremental_not_in_purged_full hparse
  have ha1 : a ∈ get_incremental_snapshot_archives
      (dir_after_full_purge dir m) := by
    apply mem_get_incremental_snapshot_archives.mpr
    exact ⟨mem_dir_after_full_purge.mpr ⟨hpath, hnotfull⟩, hparse⟩
  have hinc_iff : a.path ∈ purged_incremental_paths dir m ↔
      optionSlotLt (some a.base_slot)
        (get_highest_snapshot_archive_slot dir) = true := by
    unfold purged_incremental_paths
    rw [List.mem_map]
    constructor
    · rintro ⟨c, hc, hcp⟩
      obtain ⟨hcmem, hcond⟩ := List.mem_filter.mp hc
      have hceq : c = a := incremental_archives_path_eq hcmem ha1 hcp
      rw [hceq, highest_after_full_purge dir m hnd] at hcond
      exact hcond
    · intro hcond
      refine ⟨a, List.mem_filter.mpr ⟨ha1, ?_⟩, rfl⟩
      rw [highest_after_full_purge dir m hnd]
      exact hcond
  rw [mem_purge_old_snapshot_archives]
  constructor
  · rintro ⟨_, _, hnotinc⟩
    cases hopt : optionSlotLt (some a.base_slot)
        (get_highest_snapshot_archive_slot dir) with
    | false => rfl
    | true => exact absurd (hinc_iff.mpr hopt) hnotinc
  · intro hfalse
    refine ⟨hpath, hnotfull, ?_⟩
    intro hin
    rw [hinc_iff.mp hin] at hfalse
    exact Bool.noConfusion hfalse

/-- Witness for the amended claim C2 at a concrete directory: the
incremental archive whose base slot equals the newest full slot remains. -/
theorem claim_C2_purge_incremental_retention_witness :
    (["snapshot-100-A.tar", "incremental-snapshot-100-120-A.tar"].Nodup ∧
      (⟨"incremental-snapshot-100-120-A.tar", 100, 120, ⟨"A"⟩,
        ArchiveFormat.Tar⟩ : IncrementalSnapshotArchiveInfo)
        ∈ get_incremental_snapshot_archives
          ["snapshot-100-A.tar", "incremental-snapshot-100-120-A.tar"]) ∧
    ("incremental-snapshot-100-120-A.tar"
        ∈ purge_old_snapshot_archives
          ["snapshot-100-A.tar", "incremental-snapshot-100-120-A.tar"] 1 ↔
      optionSlotLt (some 100)
        (get_highest_snapshot_archive_slot
          ["snapshot-100-A.tar", "incremental-snapshot-100-120-A.tar"])
        = false) :=
  ⟨⟨by decide, by decide⟩,
    claim_C2_purge_incremental_retention
      ["snapshot-100-A.tar", "incremental-snapshot-100-120-A.tar"] 1
      (by decide)
      ⟨"incremental-snapshot-100-120-A.tar", 100, 120, ⟨"A"⟩,
        ArchiveFormat.Tar⟩
      (by decide)⟩

/-! ## Claim C1: bank snapshot round trip -/

/-- Counterexample to claim C1 as stated: a complete bank with a
status-cache delta whose serialized form exceeds the 32 GiB data-file cap
cannot be archived at all (the capped status-cache serialization fails),
so building a full snapshot archive and then rebuilding cannot return a
bank equal to it. -/
theorem claim_C1_counterexample :
    ¬ ∃ archive,
        bank_to_snapshot_archive ⟨0, [], [2 ^ 35]⟩ = Except.ok archive ∧
          bank_from_snapshot_archive archive
            = RestoreOutcome.ok ⟨0, [], [2 ^ 35]⟩ := by
  rintro ⟨archive, hbuild, _⟩
  have hfull : bank_to_snapshot_archive ⟨0, [], [2 ^ 35]⟩
      = Except.error (get_io_error
        ("too large snapshot data file to serialize: status_cache has " ++
          toString (2 + 2 ^ 35) ++ " bytes")) := by
    rfl
  rw [hfull] at hbuild
  exact Except.noConfusion hbuild

/-- Claim C1, amended: for every complete bank state whose serialized
state image and serialized status cache both fit the 32 GiB data-file
cap, building a full snapshot archive and then rebuilding with integrity
verification enabled returns a bank equal to the original. -/
theorem claim_C1_bank_roundtrip (bank : Bank)
    (hstate : snapDataSize (bank_to_stream bank)
      ≤ MAX_SNAPSHOT_DATA_FILE_SIZE)
    (hcache : snapDataSize (SnapData.cache bank.statusCacheDeltas)
      ≤ MAX_SNAPSHOT_DATA_FILE_SIZE) :
    ∃ archive, bank_to_snapshot_archive bank = Except.ok archive ∧
      bank_from_snapshot_archive archive = RestoreOutcome.ok bank := by
  have hbuild : bank_to_snapshot_archive bank = Except.ok
      ⟨bank.shards, bank.slot,
        ⟨bank_to_stream bank, snapDataSize (bank_to_stream bank)⟩,
        ⟨SnapData.cache bank.statusCacheDeltas,
          snapDataSize (SnapData.cache bank.statusCacheDeltas)⟩,
        VERSION_STRING_V1_2_0⟩ := by
    unfold bank_to_snapshot_archive write_snapshot_data_file
      serialize_snapshot_data_file serialize_snapshot_data_file_capped
    rw [if_neg (Nat.not_lt.mpr hstate)]
    dsimp only
    rw [if_neg (Nat.not_lt.mpr hcache)]
  refine ⟨_, hbuild, ?_⟩
  have hdecode : bank_from_streams (bank_to_stream bank) bank.shards
      = some (⟨bank.slot, bank.shards, []⟩,
          bank_accounts_hash bank.shards) := by
    simp [bank_from_streams, bank_to_stream]
  have hread1 : read_snapshot_data_file "bank-state"
      ⟨bank_to_stream bank, snapDataSize (bank_to_stream bank)⟩
      (fun d => bank_from_streams d bank.shards)
      = Except.ok (⟨bank.slot, bank.shards, []⟩,
          bank_accounts_hash bank.shards) := by
    unfold read_snapshot_data_file deserialize_snapshot_data_file_capped
    rw [if_neg (Nat.not_lt.mpr hstate)]
    dsimp only
    rw [hdecode]
    dsimp only
    rw [if_neg (fun h : snapDataSize (bank_to_stream bank)
      ≠ snapDataSize (bank_to_stream bank) => h rfl)]
  have hread2 : read_snapshot_data_file "status_cache"
      ⟨SnapData.cache bank.statusCacheDeltas,
        snapDataSize (SnapData.cache bank.statusCacheDeltas)⟩
      status_cache_from_stream
      = Except.ok bank.statusCacheDeltas := by
    unfold read_snapshot_data_file deserialize_snapshot_data_file_capped
    rw [if_neg (Nat.not_lt.mpr hcache)]
    dsimp only [status_cache_from_stream]
    rw [if_neg (fun h : snapDataSize (SnapData.cache bank.statusCacheDeltas)
      ≠ snapDataSize (SnapData.cache bank.statusCacheDeltas) => h rfl)]
  unfold bank_from_snapshot_archive
  dsimp only
  rw [show snapshot_version_from_str VERSION_STRING_V1_2_0
    = some SnapshotVersion.V1_2_0 from rfl]
  dsimp only
  rw [hread1]
  dsimp only
  rw [hread2]
  dsimp only
  rw [List.nil_append, if_pos rfl]

/-- Witness for the amended claim C1 at a concrete small bank. -/
theorem claim_C1_bank_roundtrip_witness :
    (snapDataSize (bank_to_stream ⟨5, [(6, [1, 2])], [3]⟩)
        ≤ MAX_SNAPSHOT_DATA_FILE_SIZE ∧
      snapDataSize (SnapData.cache (Bank.statusCacheDeltas
          ⟨5, [(6, [1, 2])], [3]⟩))
        ≤ MAX_SNAPSHOT_DATA_FILE_SIZE) ∧
    (∃ archive,
      bank_to_snapshot_archive ⟨5, [(6, [1, 2])], [3]⟩ = Except.ok archive ∧
        bank_from_snapshot_archive archive
          = RestoreOutcome.ok ⟨5, [(6, [1, 2])], [3]⟩) :=
  ⟨⟨by decide, by decide⟩,
    claim_C1_bank_roundtrip ⟨5, [(6, [1, 2])], [3]⟩ (by decide) (by decide)⟩
